import Mathlib

/-!
Verification of the offer resolution / effective-pricing engine and the
geo-based branch assignment logic of the `mtc_server` e-commerce backend.

Prices, timestamps and coordinates are modelled as rationals (`ℚ`): the
source works with JavaScript numbers and the claims under scrutiny are about
the exact arithmetic the code performs, not about float rounding.  Optional
document fields become `Option`; JavaScript truthiness of an optional number
(`x && ...`) is `some v` with `v ≠ 0`.  `Math.round x` is `⌊x + 1/2⌋`.

Each definition is translated from a named function of the source
repository; the corresponding file and lines are given in its doc comment.
-/

namespace MtcServer

/-- JavaScript `Math.round`: round half toward positive infinity. -/
def jsRound (q : ℚ) : ℤ := ⌊q + 1/2⌋

/-- `Math.round(x * 100) / 100` — round to 2 decimal places, as used by
`offer.service.ts` when producing `effectivePrice` and `offerDiscount`. -/
def round2 (q : ℚ) : ℚ := (jsRound (q * 100) : ℚ) / 100

/-- JavaScript truthiness of an optional number (`undefined`, `null` and `0`
are falsy). -/
def qTruthy : Option ℚ → Bool
  | some v => v ≠ 0
  | none => false

/-- Combined check `x && x > 0` on an optional number (used for
`directItem.offerPrice && directItem.offerPrice > 0` and the like). -/
def qPos : Option ℚ → Bool
  | some v => 0 < v
  | none => false

/-- JavaScript truthiness of an optional string (`undefined`, `null`, `""`
are falsy). -/
def strTruthy : Option String → Bool
  | some s => s ≠ ""
  | none => false

/-- `a || b` on an optional number: take `a` when truthy, else `b`. -/
def qOr (a : Option ℚ) (b : ℚ) : ℚ :=
  match a with
  | some v => if v ≠ 0 then v else b
  | none => b

/-- `a || b` on two optional numbers: `a` when truthy, else `b`. -/
def qOrOpt (a b : Option ℚ) : Option ℚ :=
  if qTruthy a then a else b

/-- Pricing mode of a campaign (`offer.model.ts`, `applyMode`). -/
inductive ApplyMode
  | perItem
  | bulkPercent
  | bulkAmount
deriving DecidableEq, Repr

/-- One per-item override of a campaign (`offer.model.ts`, `OfferItemSchema`).
The populated `item.product` reference is modelled by its numeric id. -/
structure OfferItem where
  product : Nat
  offerPrice : Option ℚ
  percent : Option ℚ
deriving DecidableEq, Repr

/-- Geofence of a campaign (`offer.model.ts`, `geo`): a circle (`Point` with
an optional radius in meters) or a polygon ring. -/
inductive Geo
  | point (lng lat : ℚ) (radiusMeters : Option ℚ)
  | polygon (ring : List (ℚ × ℚ))
deriving DecidableEq, Repr

/-- A promotional campaign (`offer.model.ts`, `OfferCampaignSchema`).
Object ids are modelled as `Nat`, dates as rational timestamps.
`relevanceScoreVal` is the transient score the controller attaches before
sorting (`offer.controller.ts:285-327`); it is `none` unless a cart was
supplied. -/
structure Offer where
  id : Nat
  title : String
  startsAt : Option ℚ
  endsAt : Option ℚ
  isActive : Bool
  applyMode : ApplyMode
  bulkPercent : Option ℚ
  bulkAmount : Option ℚ
  items : List OfferItem
  branches : List Nat
  cities : List String
  geo : Option Geo
  categoryIds : List Nat
  productIds : List Nat
  priority : ℤ
  stackable : Bool
  branch : Option Nat
  relevanceScoreVal : Option ℤ := none
deriving DecidableEq, Repr

/-- A catalog product, restricted to the fields the pricing engine reads
(`product.model`: `price` with schema bound `min: 0`, optional static
`offerPrice`, `category`, `title`, `isActive`). -/
structure Product where
  id : Nat
  price : ℚ
  offerPrice : Option ℚ
  category : Option Nat
  title : String
  isActive : Bool
deriving DecidableEq, Repr

/-- Entry of `applicableOffers` pushed by the pricing loop
(`offer.service.ts:169-175`). -/
structure AppliedOffer where
  id : Nat
  title : String
  discount : ℚ
  percent : ℤ
  applyMode : ApplyMode
deriving DecidableEq, Repr

/-- Result row of `calculateEffectivePrices` (`IProductWithOffer`,
`offer.service.ts:5-13`). -/
structure PricedProduct where
  id : Nat
  originalPrice : ℚ
  effectivePrice : ℚ
  hasOffer : Bool
  offerDiscount : Option ℚ
  offerPercent : Option ℤ
  applicableOffers : Option (List AppliedOffer)
deriving DecidableEq, Repr

/-- Temporal validity filter shared by every campaign query:
`isActive` and `(startsAt null or ≤ now)` and `(endsAt null or ≥ now)`. -/
def temporallyActive (now : ℚ) (o : Offer) : Bool :=
  o.isActive &&
    (match o.startsAt with | none => true | some s => s ≤ now) &&
    (match o.endsAt with | none => true | some e => now ≤ e)

/-- `offer.items?.find(item => item.product && item.product._id === productId)`
(`offer.service.ts:116-118`). -/
def directItem (o : Offer) (pid : Nat) : Option OfferItem :=
  o.items.find? (fun it => it.product == pid)

/-- Whether a campaign applies to a product, in the order the loop checks:
direct item match, explicit product-id match, category match
(`offer.service.ts:111-151`). -/
def appliesTo (o : Offer) (p : Product) : Bool :=
  (directItem o p.id).isSome ||
  o.productIds.contains p.id ||
  (match p.category with
   | some c => o.categoryIds.contains c
   | none => false)

/-- The price this single campaign computes for the product
(`calculatedPrice` in `offer.service.ts:111-160`): for `perItem` mode and a
direct item, its positive fixed price, else its positive percent; for a bulk
mode and any applicability route, the bulk formula guarded by truthiness of
the bulk field; otherwise the original price. -/
def candidatePrice (o : Offer) (p : Product) : ℚ :=
  let orig := p.price
  let afterItem : ℚ :=
    match directItem o p.id with
    | some it =>
        if o.applyMode == ApplyMode.perItem then
          if qPos it.offerPrice then it.offerPrice.getD 0
          else if qPos it.percent then orig * (1 - it.percent.getD 0 / 100)
          else orig
        else orig
    | none => orig
  if appliesTo o p && o.applyMode != ApplyMode.perItem then
    if o.applyMode == ApplyMode.bulkPercent && qTruthy o.bulkPercent then
      orig * (1 - o.bulkPercent.getD 0 / 100)
    else if o.applyMode == ApplyMode.bulkAmount && qTruthy o.bulkAmount then
      max 0 (orig - o.bulkAmount.getD 0)
    else afterItem
  else afterItem

/-- Accumulator of the per-product loop of `calculateEffectivePrices`
(`offer.service.ts:104-108`). -/
structure PriceAcc where
  eff : ℚ
  hasOffer : Bool
  discount : ℚ
  percent : ℤ
  applied : List AppliedOffer
deriving DecidableEq, Repr

/-- One iteration of the per-product loop (`offer.service.ts:111-177`): take
the candidate price when the campaign applies and strictly improves the
running best. -/
def priceStep (p : Product) (acc : PriceAcc) (o : Offer) : PriceAcc :=
  let cand := candidatePrice o p
  if appliesTo o p && cand < acc.eff then
    let discount := p.price - cand
    let percent := jsRound (discount / p.price * 100)
    { eff := cand
      hasOffer := true
      discount := discount
      percent := percent
      applied := acc.applied ++ [⟨o.id, o.title, discount, percent, o.applyMode⟩] }
  else acc

/-- Per-product pricing (`offer.service.ts:101-188`): fold the loop over the
queried campaigns and round the results to 2 decimals. -/
def priceProduct (offers : List Offer) (p : Product) : PricedProduct :=
  let a := offers.foldl (priceStep p) ⟨p.price, false, 0, 0, []⟩
  { id := p.id
    originalPrice := p.price
    effectivePrice := round2 a.eff
    hasOffer := a.hasOffer
    offerDiscount := if a.hasOffer then some (round2 a.discount) else none
    offerPercent := if a.hasOffer then some a.percent else none
    applicableOffers := if a.hasOffer then some a.applied else none }

/-- Global-campaign condition of the `OfferService` query
(`offer.service.ts:69-76`): empty branch set, empty city set, no geofence,
legacy branch null. -/
def svcGlobalCond (o : Offer) : Bool :=
  o.branches.isEmpty && o.cities.isEmpty && o.geo.isNone && o.branch == none

/-- Location part of the `OfferService` query (`offer.service.ts:56-80`):
branch-specific campaigns (current or legacy field) when a branch id is
given, or global campaigns. -/
def svcLocationOk (branchId : Option Nat) (o : Offer) : Bool :=
  match branchId with
  | some b => o.branches.contains b || o.branch == some b || svcGlobalCond o
  | none => svcGlobalCond o

/-- Product part of the `OfferService` query (`offer.service.ts:85-89`):
an item or explicit product id among the queried products, or any
category-based campaign. -/
def svcProductCond (productIds : List Nat) (o : Offer) : Bool :=
  o.items.any (fun it => productIds.contains it.product) ||
  o.productIds.any (fun pid => productIds.contains pid) ||
  !o.categoryIds.isEmpty

/-- The campaign query of `OfferService.calculateEffectivePrices`
(`offer.service.ts:36-92`). -/
def svcQuery (now : ℚ) (branchId : Option Nat) (productIds : List Nat)
    (db : List Offer) : List Offer :=
  db.filter (fun o =>
    temporallyActive now o && svcLocationOk branchId o && svcProductCond productIds o)

/-- `OfferService.calculateEffectivePrices` (`offer.service.ts:23-190`),
success path: query the active campaigns for the given products and price
each product against them. -/
def calculateEffectivePrices (now : ℚ) (db : List Offer) (branchId : Option Nat)
    (products : List Product) : List PricedProduct :=
  let offers := svcQuery now branchId (products.map (·.id)) db
  products.map (priceProduct offers)

/-- `OfferService.calculateEffectivePrices` including its `catch` branch
(`offer.service.ts:191-200`): the campaign query may fail, and on any
failure every product is returned at its original price with no offer. -/
def calculateEffectivePricesSafe (now : ℚ) (dbResult : Except String (List Offer))
    (branchId : Option Nat) (products : List Product) : List PricedProduct :=
  match dbResult with
  | Except.ok db => calculateEffectivePrices now db branchId products
  | Except.error _ =>
      products.map (fun p =>
        { id := p.id
          originalPrice := p.price
          effectivePrice := p.price
          hasOffer := false
          offerDiscount := none
          offerPercent := none
          applicableOffers := none })

/-- Location context of a request to `resolveRelevantOffers`
(`offer.controller.ts:97-146`), after branch/city/coordinate resolution:
`userBranchId`, `userCity`, `userCoordinates` as `(lng, lat)`. -/
structure LocationCtx where
  branchId : Option Nat
  city : Option String
  coords : Option (ℚ × ℚ)
deriving DecidableEq, Repr

/-- Global-campaign condition of the controller query
(`offer.controller.ts:190-197`). -/
def ctrlGlobalCond (o : Offer) : Bool :=
  o.branches.isEmpty && o.cities.isEmpty && o.geo.isNone && o.branch == none

/-- The base query of `resolveRelevantOffers` (`offer.controller.ts:148-202`):
temporally active, and branch match (when a branch id is present), or city
match (when a city is present), or fully unrestricted. -/
def ctrlBase (now : ℚ) (ctx : LocationCtx) (o : Offer) : Bool :=
  temporallyActive now o &&
    ((match ctx.branchId with
      | some b => o.branches.contains b || o.branch == some b
      | none => false) ||
     (match ctx.city with
      | some c => o.cities.contains c
      | none => false) ||
     ctrlGlobalCond o)

/-- The geofence containment test of `resolveRelevantOffers`
(`offer.controller.ts:220-252`): a `Point` geofence with a truthy radius
admits coordinates within `radiusMeters` of its center (haversine distance,
`calculateDistance`), a `Polygon` geofence uses the spatial store's
point-in-polygon query.  The haversine distance and the polygon test are
transcendental / delegated to the database, so they are taken as parameters
`distMeters` and `polyContains`. -/
def geoMatches (distMeters : ℚ × ℚ → ℚ × ℚ → ℚ)
    (polyContains : List (ℚ × ℚ) → ℚ × ℚ → Bool)
    (g : Geo) (uc : ℚ × ℚ) : Bool :=
  match g with
  | Geo.point lng lat r =>
      if qTruthy r then distMeters uc (lng, lat) ≤ r.getD 0 else false
  | Geo.polygon ring => polyContains ring uc

/-- The campaign selection of `resolveRelevantOffers`
(`offer.controller.ts:148-269`): the base query, followed by the geo
handling block that re-queries campaigns with a geofence (under the same
base query) and appends those whose geofence contains the coordinates and
whose id is not already present. -/
def resolveSelection (distMeters : ℚ × ℚ → ℚ × ℚ → ℚ)
    (polyContains : List (ℚ × ℚ) → ℚ × ℚ → Bool)
    (now : ℚ) (ctx : LocationCtx) (db : List Offer) : List Offer :=
  let offers := db.filter (ctrlBase now ctx)
  match ctx.coords with
  | none => offers
  | some uc =>
      let geoOffers := db.filter (fun o => ctrlBase now ctx o && o.geo.isSome)
      geoOffers.foldl (fun acc o =>
        match o.geo with
        | some g =>
            if geoMatches distMeters polyContains g uc &&
                !(acc.any (fun x => x.id == o.id)) then
              acc ++ [o]
            else acc
        | none => acc) offers

/-- Date part of the sort comparator (`offer.controller.ts:343-353`): when
both campaigns carry a start date their difference decides, else when both
carry an end date, else equal. -/
def cmpDates (a b : Offer) : ℚ :=
  match a.startsAt, b.startsAt with
  | some sa, some sb => sa - sb
  | _, _ =>
      match a.endsAt, b.endsAt with
      | some ea, some eb => ea - eb
      | _, _ => 0

/-- The sort comparator of `resolveRelevantOffers`
(`offer.controller.ts:330-354`): priority descending, then relevance score
descending when both are present, then the date comparison. -/
def jsCmp (a b : Offer) : ℚ :=
  if a.priority ≠ b.priority then ((b.priority - a.priority : ℤ) : ℚ)
  else
    match a.relevanceScoreVal, b.relevanceScoreVal with
    | some ra, some rb => if ra ≠ rb then ((rb - ra : ℤ) : ℚ) else cmpDates a b
    | _, _ => cmpDates a b

/-- Stable insertion: place `x` before the first element it strictly
precedes under the comparator.  Models the ECMAScript stable `Array.sort`
with the comparator above. -/
def sortedInsert (x : Offer) : List Offer → List Offer
  | [] => [x]
  | y :: ys => if jsCmp x y < 0 then x :: y :: ys else y :: sortedInsert x ys

/-- The sort step of `resolveRelevantOffers` (`offer.controller.ts:330-354`)
as a stable insertion sort under `jsCmp`. -/
def sortOffers (l : List Offer) : List Offer :=
  l.foldl (fun acc x => sortedInsert x acc) []

/-- The products a campaign claims in the stacking loop: the products of its
item list (`offer.controller.ts:366-367, 377-378`). -/
def coveredProducts (o : Offer) : List Nat := o.items.map (·.product)

/-- The `productOfferMap` of the stacking loop: product id to the campaigns
currently claiming it, defaulting to the empty list. -/
abbrev StackMap := Nat → List Offer

/-- Map update. -/
def mapSet (m : StackMap) (k : Nat) (v : List Offer) : StackMap :=
  fun k' => if k' == k then v else m k'

/-- One iteration of the stacking loop (`offer.controller.ts:360-402`): a
stackable campaign is appended and pushed onto every covered product's claim
list; a non-stackable campaign is accepted only when no covered product has
a non-stackable claiming campaign of equal or higher priority, and then
replaces the claim list of each covered product with itself alone. -/
def stackStep (st : List Offer × StackMap) (o : Offer) : List Offer × StackMap :=
  let applied := st.1
  let m := st.2
  if o.stackable then
    (applied ++ [o],
     (coveredProducts o).foldl (fun m' pid => mapSet m' pid (m' pid ++ [o])) m)
  else
    let canApply := (coveredProducts o).all (fun pid =>
      !((m pid).any (fun e => !e.stackable && o.priority ≤ e.priority)))
    if canApply then
      (applied ++ [o],
       (coveredProducts o).foldl (fun m' pid => mapSet m' pid [o]) m)
    else (applied, m)

/-- The stacking loop of `resolveRelevantOffers`
(`offer.controller.ts:356-402`) over an already-sorted campaign list. -/
def stackingResolve (l : List Offer) : List Offer :=
  (l.foldl stackStep ([], fun _ => [])).1

/-- A physical branch (`branch.model`): id, name, active flag and location
`(lng, lat)`. -/
structure Branch where
  id : Nat
  name : String
  isActive : Bool
  lng : ℚ
  lat : ℚ
deriving DecidableEq, Repr

/-- The running-minimum scan of `findNearestBranchManual`
(`uploadService.ts:284-299`): strict improvement keeps the earliest branch
among equals; `none` plays the role of the initial `Infinity`.
`d` is the distance from the query point to a branch in kilometers
(haversine, `GeolocationService.calculateDistance`); being transcendental it
is a parameter here. -/
def scanNearest (d : Branch → ℚ) (l : List Branch) : Option (Branch × ℚ) :=
  l.foldl (fun acc b =>
    match acc with
    | none => some (b, d b)
    | some (c, dc) => if d b < dc then some (b, d b) else some (c, dc)) none

/-- `BranchAssignmentService.findNearestBranchManual`
(`uploadService.ts:274-307`): scan every active branch and keep the
minimum-distance one; `none` on an empty active set. -/
def findNearestBranchManual (d : Branch → ℚ) (db : List Branch) : Option Branch :=
  let actives := db.filter (·.isActive)
  if actives.isEmpty then none
  else (scanNearest d actives).map (·.1)

/-- Modelled from the spec: the MongoDB `$near` query issued by
`BranchAssignmentService.findNearestBranchByCoordinates`
(`uploadService.ts:208-233`) is not part of the repository; per §4.2 of the
spec it returns the nearest active branch within `maxDistanceKm`
(`$maxDistance: maxDistanceKm * 1000` meters) under the same distance
function as the manual fallback, or `none` when no active branch lies within
that radius.  Ties resolve to the earliest branch, matching the fallback's
scan. -/
def findNearestBranchByCoordinates (d : Branch → ℚ) (maxDistanceKm : ℚ)
    (db : List Branch) : Option Branch :=
  (scanNearest d (db.filter (fun b => b.isActive && d b ≤ maxDistanceKm))).map (·.1)

/-- Shipping address submitted with an order (`IShippingAddress`), with the
fields the required-field validation of `OrderService.createOrder` reads. -/
structure ShippingAddress where
  firstName : Option String
  lastName : Option String
  email : Option String
  phone : Option String
  companyName : Option String
  crNumber : Option String
  vatNumber : Option String
  address : Option String
  district : Option String
  buildingNumber : Option String
  postalCode : Option String
  vatRegistered : Bool
deriving DecidableEq, Repr

/-- One requested order line (`CreateOrderData.items`). -/
structure OrderItemReq where
  productId : Nat
  quantity : ℚ
deriving DecidableEq, Repr

/-- `CreateOrderData` (order service part, lines 9-28): the client-submitted
order. `clientLocation` is `(lat, lng)` as submitted. -/
structure CreateOrderData where
  customerId : Nat
  items : List OrderItemReq
  shippingAddress : ShippingAddress
  subtotal : ℚ
  shipping : ℚ
  total : ℚ
  saveInfo : Bool
  customerIpAddress : Option String
  clientLocation : Option (ℚ × ℚ)
deriving DecidableEq, Repr

/-- A frozen order line (`IOrderItem` snapshot built at
order-service lines 81-89). -/
structure OrderLine where
  product : Nat
  title : String
  price : ℚ
  offerPrice : Option ℚ
  quantity : ℚ
  lineSubtotal : ℚ
deriving DecidableEq, Repr

/-- A persisted order (order-service lines 200-213), with the fields the
claims read. -/
structure Order where
  orderNumber : Nat
  customer : Nat
  branch : Option Nat
  items : List OrderLine
  subtotal : ℚ
  shipping : ℚ
  total : ℚ
deriving DecidableEq, Repr

/-- The persistent state the order path touches: customers, products,
campaigns, branches, persisted orders and saved addresses. -/
structure Db where
  customers : List Nat
  products : List Product
  offers : List Offer
  branches : List Branch
  orders : List Order
  addresses : List (Nat × ShippingAddress)
deriving Repr

/-- `OfferService.applyOfferPricing` (`offer.service.ts:210-231`) for one
product with no branch and no location, as invoked by
`OrderService.createOrder`: the dynamic `offerPrice` is the effective price
when an offer fired, else the product's static `offerPrice`. -/
def applyOfferPricingNoCtx (now : ℚ) (offersDb : List Offer) (p : Product) :
    Option ℚ × ℚ :=
  match calculateEffectivePrices now offersDb none [p] with
  | pw :: _ => (if pw.hasOffer then some pw.effectivePrice else p.offerPrice, p.price)
  | [] => (p.offerPrice, p.price)

/-- Build the order lines and the server-side recomputed subtotal
(order-service lines 51-90): per line, `price = offerPrice || price`
from `applyOfferPricing`, times quantity. -/
def processItems (now : ℚ) (db : Db) (items : List OrderItemReq) :
    Except String (List OrderLine × ℚ) :=
  items.foldlM (fun (st : List OrderLine × ℚ) it => do
    match db.products.find? (fun pr => pr.id == it.productId) with
    | none => Except.error "Product not found"
    | some product =>
        let (dynOfferPrice, basePrice) := applyOfferPricingNoCtx now db.offers product
        let price := qOr dynOfferPrice basePrice
        let sub := price * it.quantity
        Except.ok
          (st.1 ++ [⟨product.id, product.title, product.price, dynOfferPrice,
                      it.quantity, sub⟩],
           st.2 + sub)) ([], 0)

/-- The required-field validation of the shipping address
(order-service lines 107-130): VAT-registered companies and individuals
have different required sets; a missing (or empty) field throws. -/
def validateShippingAddress (a : ShippingAddress) : Except String Unit :=
  if a.vatRegistered then
    if [a.companyName, a.phone, a.crNumber, a.vatNumber, a.address,
        a.buildingNumber, a.district, a.postalCode].all strTruthy then
      Except.ok ()
    else Except.error "required for VAT registered companies"
  else
    if [a.firstName, a.lastName, a.phone, a.address, a.buildingNumber,
        a.district].all strTruthy then
      if strTruthy a.email then Except.ok ()
      else Except.error "email is required for individual customers"
    else Except.error "required for individual customers"

/-- Branch assignment of `OrderService.createOrder` (order-service lines
132-193): client coordinates first (radius 10000 km, manual fallback when
the spatial query yields nothing), else IP geolocation (radius 100 km with
the same fallback), else unassigned.  `d` maps a query point to the
per-branch distance; `ipLocate` is the external IP geolocation service. -/
def assignBranch (d : ℚ × ℚ → Branch → ℚ) (ipLocate : String → Option (ℚ × ℚ))
    (db : Db) (data : CreateOrderData) : Option Nat :=
  match data.clientLocation with
  | some (lat, lng) =>
      let found : Option Branch :=
        match findNearestBranchByCoordinates (d (lng, lat)) 10000 db.branches with
        | some b => some b
        | none => findNearestBranchManual (d (lng, lat)) db.branches
      found.map (·.id)
  | none =>
      match data.customerIpAddress with
      | some ip =>
          match ipLocate ip with
          | some (lat, lng) =>
              let found : Option Branch :=
                match findNearestBranchByCoordinates (d (lng, lat)) 100 db.branches with
                | some b => some b
                | none => findNearestBranchManual (d (lng, lat)) db.branches
              found.map (·.id)
          | none => none
      | none => none

/-- `OrderService.createOrder` (order-service lines 39-266).  The MongoDB
session is modelled by returning the original `Db` unchanged whenever any
step throws (the transaction aborts), and the committed `Db` on success.
The order number is the order count plus one (the `MTC...` string padding is
immaterial to the claims). -/
def createOrder (d : ℚ × ℚ → Branch → ℚ) (ipLocate : String → Option (ℚ × ℚ))
    (now : ℚ) (data : CreateOrderData) (db : Db) : Db × Except String Order :=
  let run : Except String (Db × Order) :=
    if !(db.customers.contains data.customerId) then
      Except.error "Customer not found"
    else
      match processItems now db data.items with
      | Except.error e => Except.error e
      | Except.ok (lines, calculatedSubtotal) =>
          if 1/100 < |calculatedSubtotal - data.subtotal| then
            Except.error "Subtotal mismatch"
          else if 1/100 < |calculatedSubtotal + data.shipping - data.total| then
            Except.error "Total amount mismatch"
          else
            match validateShippingAddress data.shippingAddress with
            | Except.error e => Except.error e
            | Except.ok _ =>
                let branch := assignBranch d ipLocate db data
                let order : Order :=
                  { orderNumber := db.orders.length + 1
                    customer := data.customerId
                    branch := branch
                    items := lines
                    subtotal := data.subtotal
                    shipping := data.shipping
                    total := data.total }
                let db' := { db with orders := db.orders ++ [order] }
                let db'' :=
                  if data.saveInfo then
                    { db' with
                        addresses := db'.addresses ++ [(data.customerId, data.shippingAddress)] }
                  else db'
                Except.ok (db'', order)
  match run with
  | Except.ok (db', o) => (db', Except.ok o)
  | Except.error e => (db, Except.error e)

/-- Role of an authenticated back-office user. -/
inductive Role
  | admin
  | branchOp
deriving DecidableEq, Repr

/-- An authenticated back-office user (`req.user`). -/
structure AppUser where
  role : Role
  uid : Nat
  branchId : Option Nat
deriving DecidableEq, Repr

/-- One submitted campaign item (`CreateOfferDto.items`). -/
structure OfferItemReq where
  product : Nat
  offerPrice : Option ℚ
  percent : Option ℚ
deriving DecidableEq, Repr

/-- `CreateOfferDto` (`offer.validation.ts:327-340`). -/
structure CreateOfferBody where
  title : String
  startsAt : Option ℚ
  endsAt : Option ℚ
  applyMode : ApplyMode
  bulkPercent : Option ℚ
  bulkAmount : Option ℚ
  branch : Option Nat
  items : List OfferItemReq
deriving DecidableEq, Repr

/-- `UpdateOfferDto` (`offer.validation.ts:342-356`).  The outer `Option`
distinguishes an absent field (`undefined`, no update) from a present one;
for the date and branch fields the inner `Option` is the submitted null. -/
structure UpdateOfferBody where
  title : Option String
  startsAt : Option (Option ℚ)
  endsAt : Option (Option ℚ)
  isActive : Option Bool
  applyMode : Option ApplyMode
  bulkPercent : Option ℚ
  bulkAmount : Option ℚ
  branch : Option (Option Nat)
  items : Option (List OfferItemReq)
deriving DecidableEq, Repr

/-- One entry of the conflict report built by `checkProductConflicts`
(`offer.controller.ts:633-642`). -/
structure ConflictDetail where
  offerTitle : String
  products : List String
deriving DecidableEq, Repr

/-- Errors thrown by the campaign write path (`AppError` codes in
`offer.controller.ts`). -/
inductive WriteError
  | productsNotFound
  | productConflict (details : List ConflictDetail)
  | bulkPercentRequired
  | bulkAmountRequired
  | notFound
  | forbidden
deriving DecidableEq, Repr

/-- The persistent state the campaign write path touches. `nextId` supplies
the id of a newly created campaign. -/
structure OffersDb where
  offers : List Offer
  products : List Product
  nextId : Nat
deriving Repr

/-- Title of a referenced product (the `populate('items.product', 'title')`
lookup); referential integrity of the store is assumed. -/
def productTitle (products : List Product) (pid : Nat) : String :=
  ((products.find? (fun p => p.id == pid)).map (·.title)).getD ""

/-- The campaign filter of `checkProductConflicts`
(`offer.controller.ts:586-626`): active, covering one of the submitted
products through its item list, temporally valid now, branch-compatible
(global or same branch when a target branch is given), and not the excluded
campaign. -/
def conflictPred (now : ℚ) (productIds : List Nat)
    (excludeOfferId targetBranch : Option Nat) (o : Offer) : Bool :=
  o.isActive &&
  o.items.any (fun it => productIds.contains it.product) &&
  (match o.startsAt with | none => true | some s => s ≤ now) &&
  (match o.endsAt with | none => true | some e => now ≤ e) &&
  (match targetBranch with
   | some tb => o.branch == none || o.branch == some tb
   | none => true) &&
  (match excludeOfferId with
   | some ex => o.id != ex
   | none => true)

/-- `OfferController.checkProductConflicts` (`offer.controller.ts:586-648`):
collect the conflicting campaigns and report each one's title together with
the overlapping products' titles, or `none` when there is no conflict. -/
def checkProductConflicts (now : ℚ) (offers : List Offer) (products : List Product)
    (productIds : List Nat) (excludeOfferId targetBranch : Option Nat) :
    Option (List ConflictDetail) :=
  let conflicting := offers.filter (conflictPred now productIds excludeOfferId targetBranch)
  if conflicting.isEmpty then none
  else
    some (conflicting.map (fun o =>
      ⟨o.title,
       (o.items.filter (fun it => productIds.contains it.product)).map
         (fun it => productTitle products it.product)⟩))

/-- `OfferController.createOffer` (`offer.controller.ts:721-813`): validate
product existence, check conflicts branch-aware, validate the bulk fields,
then persist the new campaign.  On any thrown error the store is returned
unchanged. -/
def createOfferW (now : ℚ) (user : AppUser) (body : CreateOfferBody)
    (db : OffersDb) : OffersDb × Except WriteError Offer :=
  let itemsCheck : Except WriteError Unit :=
    if body.items.isEmpty then Except.ok ()
    else
      let productIds := body.items.map (·.product)
      if (db.products.filter (fun p => productIds.contains p.id)).length ≠
          productIds.length then
        Except.error WriteError.productsNotFound
      else
        let targetBranch :=
          if user.role == Role.branchOp then user.branchId else body.branch
        match checkProductConflicts now db.offers db.products productIds none targetBranch with
        | some details => Except.error (WriteError.productConflict details)
        | none => Except.ok ()
  match itemsCheck with
  | Except.error e => (db, Except.error e)
  | Except.ok _ =>
      if body.applyMode == ApplyMode.bulkPercent && !qTruthy body.bulkPercent then
        (db, Except.error WriteError.bulkPercentRequired)
      else if body.applyMode == ApplyMode.bulkAmount && !qTruthy body.bulkAmount then
        (db, Except.error WriteError.bulkAmountRequired)
      else
        let offer : Offer :=
          { id := db.nextId
            title := body.title
            startsAt := body.startsAt
            endsAt := body.endsAt
            isActive := true
            applyMode := body.applyMode
            bulkPercent := if body.applyMode == ApplyMode.bulkPercent then body.bulkPercent else none
            bulkAmount := if body.applyMode == ApplyMode.bulkAmount then body.bulkAmount else none
            items := body.items.map (fun it => ⟨it.product, it.offerPrice, it.percent⟩)
            branches := []
            cities := []
            geo := none
            categoryIds := []
            productIds := []
            priority := 0
            stackable := false
            branch := if user.role == Role.branchOp then user.branchId else body.branch }
        ({ db with offers := db.offers ++ [offer], nextId := db.nextId + 1 },
         Except.ok offer)

/-- Target branch of the conflict check inside `updateOffer`
(`offer.controller.ts:862-864`): an admin submitting a `branch` field uses
the submitted value, a branch operator their own branch, otherwise the
campaign's current branch. -/
def updateTargetBranch (user : AppUser) (body : UpdateOfferBody) (o : Offer) : Option Nat :=
  if user.role == Role.admin && body.branch.isSome then body.branch.getD none
  else if user.role == Role.branchOp then user.branchId
  else o.branch

/-- `OfferController.updateOffer` (`offer.controller.ts:815-890`): find the
campaign, check permissions, apply the submitted field updates, check item
conflicts (excluding the campaign itself, branch-aware), and save.  On any
thrown error the store is returned unchanged. -/
def updateOfferW (now : ℚ) (user : AppUser) (oid : Nat) (body : UpdateOfferBody)
    (db : OffersDb) : OffersDb × Except WriteError Offer :=
  match db.offers.find? (fun o => o.id == oid) with
  | none => (db, Except.error WriteError.notFound)
  | some offer0 =>
      if user.role == Role.branchOp && offer0.branch.isSome &&
          offer0.branch != user.branchId then
        (db, Except.error WriteError.forbidden)
      else
        let o1 : Offer :=
          { offer0 with
              title := body.title.getD offer0.title
              startsAt := body.startsAt.getD offer0.startsAt
              endsAt := body.endsAt.getD offer0.endsAt
              isActive := body.isActive.getD offer0.isActive
              branch :=
                if user.role == Role.admin && body.branch.isSome then body.branch.getD none
                else offer0.branch }
        let o2 : Offer :=
          match body.applyMode with
          | none => o1
          | some m =>
              if m == ApplyMode.bulkPercent then
                { o1 with applyMode := m
                          bulkPercent := qOrOpt body.bulkPercent o1.bulkPercent
                          bulkAmount := none }
              else if m == ApplyMode.bulkAmount then
                { o1 with applyMode := m
                          bulkAmount := qOrOpt body.bulkAmount o1.bulkAmount
                          bulkPercent := none }
              else
                { o1 with applyMode := m, bulkPercent := none, bulkAmount := none }
        match body.items with
        | none =>
            ({ db with offers := db.offers.map (fun o => if o.id == oid then o2 else o) },
             Except.ok o2)
        | some its =>
            let productIds := its.map (·.product)
            let targetBranch := updateTargetBranch user body offer0
            match checkProductConflicts now db.offers db.products productIds
                (some oid) targetBranch with
            | some details => (db, Except.error (WriteError.productConflict details))
            | none =>
                let o3 : Offer :=
                  { o2 with items := its.map (fun it => ⟨it.product, it.offerPrice, it.percent⟩) }
                ({ db with offers := db.offers.map (fun o => if o.id == oid then o3 else o) },
                 Except.ok o3)

/-! ## Characterization of the per-product pricing loop -/

/-- The candidate prices of the campaigns that apply to a product, in
query order. -/
def applicableCandidates (p : Product) (offers : List Offer) : List ℚ :=
  (offers.filter (fun o => appliesTo o p)).map (fun o => candidatePrice o p)

theorem foldl_priceStep_eff (p : Product) :
    ∀ (offers : List Offer) (acc : PriceAcc),
      (offers.foldl (priceStep p) acc).eff =
        (applicableCandidates p offers).foldl min acc.eff := by
  intro offers
  induction offers with
  | nil => intro acc; rfl
  | cons o os ih =>
      intro acc
      by_cases h : appliesTo o p = true
      · have hfil : applicableCandidates p (o :: os) =
            candidatePrice o p :: applicableCandidates p os := by
          simp [applicableCandidates, List.filter_cons, h]
        rw [List.foldl_cons, ih, hfil, List.foldl_cons]
        congr 1
        by_cases hlt : candidatePrice o p < acc.eff
        · simp [priceStep, h, hlt, min_eq_right (le_of_lt hlt)]
        · simp [priceStep, h, hlt, min_eq_left (not_lt.mp hlt)]
      · have hfil : applicableCandidates p (o :: os) = applicableCandidates p os := by
          simp [applicableCandidates, List.filter_cons, h]
        rw [List.foldl_cons, ih, hfil]
        congr 1
        simp [priceStep, h]

theorem foldl_priceStep_hasOffer (p : Product) :
    ∀ (offers : List Offer) (acc : PriceAcc),
      (offers.foldl (priceStep p) acc).hasOffer =
        (acc.hasOffer ||
          (applicableCandidates p offers).any (fun c => decide (c < acc.eff))) := by
  intro offers
  induction offers with
  | nil => intro acc; simp [applicableCandidates]
  | cons o os ih =>
      intro acc
      by_cases h : appliesTo o p = true
      · have hfil : applicableCandidates p (o :: os) =
            candidatePrice o p :: applicableCandidates p os := by
          simp [applicableCandidates, List.filter_cons, h]
        rw [List.foldl_cons, ih, hfil]
        by_cases hlt : candidatePrice o p < acc.eff
        · simp [priceStep, h, hlt]
        · simp [priceStep, h, hlt]
      · have hfil : applicableCandidates p (o :: os) = applicableCandidates p os := by
          simp [applicableCandidates, List.filter_cons, h]
        rw [List.foldl_cons, ih, hfil]
        simp [priceStep, h]

theorem priceProduct_ignores_priority_stackable (p : Product) (offers : List Offer)
    (f : Offer → ℤ) (g : Offer → Bool) :
    priceProduct (offers.map (fun o => { o with priority := f o, stackable := g o })) p =
      priceProduct offers p := by
  unfold priceProduct
  rw [List.foldl_map]
  rfl

theorem foldl_min_of_all_ge {l : List ℚ} :
    ∀ a : ℚ, (∀ c ∈ l, a ≤ c) → l.foldl min a = a := by
  induction l with
  | nil => intro a _; rfl
  | cons c cs ih =>
      intro a h
      rw [List.foldl_cons, min_eq_left (h c (by simp))]
      exact ih a (fun x hx => h x (by simp [hx]))

theorem foldl_min_le_init {l : List ℚ} : ∀ a : ℚ, l.foldl min a ≤ a := by
  induction l with
  | nil => intro a; exact le_refl a
  | cons c cs ih =>
      intro a
      exact le_trans (ih (min a c)) (min_le_left a c)

theorem le_foldl_min {l : List ℚ} :
    ∀ a b : ℚ, b ≤ a → (∀ c ∈ l, b ≤ c) → b ≤ l.foldl min a := by
  induction l with
  | nil => intro a b hb _; exact hb
  | cons c cs ih =>
      intro a b hb h
      rw [List.foldl_cons]
      exact ih _ b (le_min hb (h c (by simp))) (fun x hx => h x (by simp [hx]))

theorem round2_mono {a b : ℚ} (h : a ≤ b) : round2 a ≤ round2 b := by
  unfold round2 jsRound
  have : (⌊a * 100 + 1/2⌋ : ℤ) ≤ ⌊b * 100 + 1/2⌋ := by
    apply Int.floor_le_floor
    nlinarith
  have h100 : (0:ℚ) < 100 := by norm_num
  exact (div_le_div_iff_of_pos_right h100).mpr (by exact_mod_cast this)

theorem round2_nonneg {a : ℚ} (h : 0 ≤ a) : 0 ≤ round2 a := by
  unfold round2 jsRound
  have : (0:ℤ) ≤ ⌊a * 100 + 1/2⌋ := by
    apply Int.floor_nonneg.mpr
    nlinarith
  have h100 : (0:ℚ) < 100 := by norm_num
  exact div_nonneg (by exact_mod_cast this) (le_of_lt h100)

/-! ## C1 — minimum of candidate prices -/

/-- C1 (amended: the returned prices are rounded to 2 decimal places).
For every product and every set of applicable active campaigns, the pricing
calculator returns an effectivePrice equal to the minimum of the original
price and the candidate prices computed for each applicable campaign,
rounded to 2 decimals, independent of the campaigns' priority and stackable
flags; `hasOffer` holds exactly when some applicable campaign yields a price
strictly below the original, and when none does, effectivePrice is the
original price rounded to 2 decimals and hasOffer is false. -/
theorem effective_price_is_min_candidates (p : Product) (offers : List Offer)
    (f : Offer → ℤ) (g : Offer → Bool) :
    (priceProduct (offers.map (fun o => { o with priority := f o, stackable := g o })) p).effectivePrice
        = round2 ((applicableCandidates p offers).foldl min p.price) ∧
    (priceProduct (offers.map (fun o => { o with priority := f o, stackable := g o })) p).hasOffer
        = (applicableCandidates p offers).any (fun c => decide (c < p.price)) ∧
    ((∀ c ∈ applicableCandidates p offers, p.price ≤ c) →
      (priceProduct (offers.map (fun o => { o with priority := f o, stackable := g o })) p).effectivePrice
          = round2 p.price ∧
      (priceProduct (offers.map (fun o => { o with priority := f o, stackable := g o })) p).hasOffer
          = false) := by
  rw [priceProduct_ignores_priority_stackable]
  have heff : (priceProduct offers p).effectivePrice =
      round2 ((applicableCandidates p offers).foldl min p.price) := by
    simp [priceProduct, foldl_priceStep_eff]
  have hhas : (priceProduct offers p).hasOffer =
      (applicableCandidates p offers).any (fun c => decide (c < p.price)) := by
    simp [priceProduct, foldl_priceStep_hasOffer]
  refine ⟨heff, hhas, fun hge => ⟨?_, ?_⟩⟩
  · rw [heff, foldl_min_of_all_ge p.price hge]
  · rw [hhas]
    simp only [List.any_eq_false]
    intro c hc
    simpa using not_lt.mpr (hge c hc)

/-- C1, counterexample to the claim as stated: a product priced `7/500`
(0.014) covered by no campaign comes back with `hasOffer = false` but
`effectivePrice = 0.01 ≠ 0.014`: the code rounds the original price to two
decimals, so effectivePrice does not equal originalPrice. -/
theorem effective_price_original_rounding_cex :
    (priceProduct [] ⟨1, 7/500, none, none, "P", true⟩).hasOffer = false ∧
    (priceProduct [] ⟨1, 7/500, none, none, "P", true⟩).effectivePrice = 1/100 ∧
    (priceProduct [] ⟨1, 7/500, none, none, "P", true⟩).effectivePrice ≠
      (priceProduct [] ⟨1, 7/500, none, none, "P", true⟩).originalPrice := by
  norm_num [priceProduct, priceStep, round2, jsRound]

/-- C1 witness: the amended theorem applied to a product priced 20 with one
campaign whose only candidate price (25, a per-item fixed price above the
original) is not below the original, so the implication's hypothesis is
dischargeable. -/
theorem effective_price_is_min_candidates_witness :
    (priceProduct [({ id := 9, title := "hi", startsAt := none, endsAt := none, isActive := true, applyMode := ApplyMode.perItem, bulkPercent := none, bulkAmount := none, items := [⟨1, some 25, none⟩], branches := [], cities := [], geo := none, categoryIds := [], productIds := [], priority := 0, stackable := false, branch := none } : Offer)]
        ⟨1, 20, none, none, "P", true⟩).effectivePrice = round2 20 ∧
    (priceProduct [({ id := 9, title := "hi", startsAt := none, endsAt := none, isActive := true, applyMode := ApplyMode.perItem, bulkPercent := none, bulkAmount := none, items := [⟨1, some 25, none⟩], branches := [], cities := [], geo := none, categoryIds := [], productIds := [], priority := 0, stackable := false, branch := none } : Offer)]
        ⟨1, 20, none, none, "P", true⟩).hasOffer = false := by
  have h := (effective_price_is_min_candidates ⟨1, 20, none, none, "P", true⟩
    [{ id := 9, title := "hi", startsAt := none, endsAt := none, isActive := true, applyMode := ApplyMode.perItem, bulkPercent := none, bulkAmount := none, items := [⟨1, some 25, none⟩], branches := [], cities := [], geo := none, categoryIds := [], productIds := [], priority := 0, stackable := false, branch := none }]
    (fun o => o.priority) (fun o => o.stackable)).2.2 (by
      intro c hc
      simp [applicableCandidates, appliesTo, directItem, candidatePrice,
        List.find?, qPos] at hc
      norm_num [hc])
  simpa using h

/-! ## C5 — single applicable campaign -/

/-- The price formula asserted by the spec for a product covered by exactly
one applicable campaign, written from the claim's words: perItem uses the
matching item's fixed offer price if set, else the percent formula if its
percent is set, else no discount; bulkPercent gives
`price * (1 - percent/100)`; bulkAmount gives `max 0 (price - amount)`. -/
def claimC5Price (o : Offer) (p : Product) : ℚ :=
  match o.applyMode with
  | ApplyMode.perItem =>
      match directItem o p.id with
      | some it =>
          match it.offerPrice with
          | some v => v
          | none =>
              match it.percent with
              | some pc => p.price * (1 - pc / 100)
              | none => p.price
      | none => p.price
  | ApplyMode.bulkPercent => p.price * (1 - o.bulkPercent.getD 0 / 100)
  | ApplyMode.bulkAmount => max 0 (p.price - o.bulkAmount.getD 0)

/-- The amended per-campaign formula: as `claimC5Price`, but a per-item
fixed price or percent counts only when positive, and a bulk field only when
nonzero — mirroring the JavaScript truthiness guards. -/
def claimC5AmendedPrice (o : Offer) (p : Product) : ℚ :=
  match o.applyMode with
  | ApplyMode.perItem =>
      match directItem o p.id with
      | some it =>
          if qPos it.offerPrice then it.offerPrice.getD 0
          else if qPos it.percent then p.price * (1 - it.percent.getD 0 / 100)
          else p.price
      | none => p.price
  | ApplyMode.bulkPercent =>
      if qTruthy o.bulkPercent then p.price * (1 - o.bulkPercent.getD 0 / 100)
      else p.price
  | ApplyMode.bulkAmount =>
      if qTruthy o.bulkAmount then max 0 (p.price - o.bulkAmount.getD 0)
      else p.price

theorem candidatePrice_eq_claimAmended (o : Offer) (p : Product)
    (h : appliesTo o p = true) :
    candidatePrice o p = claimC5AmendedPrice o p := by
  cases hm : o.applyMode with
  | perItem =>
      cases hd : directItem o p.id with
      | none => simp [candidatePrice, claimC5AmendedPrice, hm, hd]
      | some it => simp [candidatePrice, claimC5AmendedPrice, hm, hd]
  | bulkPercent =>
      cases hd : directItem o p.id with
      | none => simp [candidatePrice, claimC5AmendedPrice, hm, hd, h]
      | some it => simp [candidatePrice, claimC5AmendedPrice, hm, hd, h]
  | bulkAmount =>
      cases hd : directItem o p.id with
      | none => simp [candidatePrice, claimC5AmendedPrice, hm, hd, h]
      | some it => simp [candidatePrice, claimC5AmendedPrice, hm, hd, h]

/-- C5 (amended): for every product covered by exactly one applicable
campaign, effectivePrice equals that campaign's computed price rounded to 2
decimals whenever that price is below the original, and the original price
rounded to 2 decimals otherwise — i.e. `round2 (min original computed)` —
where the per-item fixed price / percent are used only when positive and the
bulk fields only when nonzero. -/
theorem single_campaign_effective_price (p : Product) (offers : List Offer)
    (o : Offer) (h : offers.filter (fun o' => appliesTo o' p) = [o]) :
    (priceProduct offers p).effectivePrice =
      round2 (min p.price (claimC5AmendedPrice o p)) := by
  have hmem : o ∈ offers.filter (fun o' => appliesTo o' p) := by
    rw [h]; exact List.mem_singleton.mpr rfl
  have happ : appliesTo o p = true := by
    simpa using (List.mem_filter.mp hmem).2
  have hcand : applicableCandidates p offers = [candidatePrice o p] := by
    unfold applicableCandidates
    rw [h]
    rfl
  have heff : (priceProduct offers p).effectivePrice =
      round2 ((applicableCandidates p offers).foldl min p.price) := by
    simp [priceProduct, foldl_priceStep_eff]
  rw [heff, hcand]
  simp [candidatePrice_eq_claimAmended o p happ]

/-- C5, counterexample to the claim as stated: a product priced 20 whose
only applicable campaign is a perItem campaign with fixed offer price 25.
The claim's formula gives 25, but the code never takes a candidate that is
not strictly below the running best, so the effective price stays 20. -/
theorem single_campaign_effective_price_cex :
    ([({ id := 9, title := "hi", startsAt := none, endsAt := none, isActive := true, applyMode := ApplyMode.perItem, bulkPercent := none, bulkAmount := none, items := [⟨1, some 25, none⟩], branches := [], cities := [], geo := none, categoryIds := [], productIds := [], priority := 0, stackable := false, branch := none } : Offer)].filter
        (fun o' => appliesTo o' ⟨1, 20, none, none, "P", true⟩) =
      [({ id := 9, title := "hi", startsAt := none, endsAt := none, isActive := true, applyMode := ApplyMode.perItem, bulkPercent := none, bulkAmount := none, items := [⟨1, some 25, none⟩], branches := [], cities := [], geo := none, categoryIds := [], productIds := [], priority := 0, stackable := false, branch := none } : Offer)]) ∧
    round2 (claimC5Price { id := 9, title := "hi", startsAt := none, endsAt := none, isActive := true, applyMode := ApplyMode.perItem, bulkPercent := none, bulkAmount := none, items := [⟨1, some 25, none⟩], branches := [], cities := [], geo := none, categoryIds := [], productIds := [], priority := 0, stackable := false, branch := none }
        ⟨1, 20, none, none, "P", true⟩) = 25 ∧
    (priceProduct [({ id := 9, title := "hi", startsAt := none, endsAt := none, isActive := true, applyMode := ApplyMode.perItem, bulkPercent := none, bulkAmount := none, items := [⟨1, some 25, none⟩], branches := [], cities := [], geo := none, categoryIds := [], productIds := [], priority := 0, stackable := false, branch := none } : Offer)]
        ⟨1, 20, none, none, "P", true⟩).effectivePrice = 20 ∧
    (20 : ℚ) ≠ 25 := by
  refine ⟨?_, ?_, ?_, by norm_num⟩
  · simp [appliesTo, directItem, List.find?]
  · norm_num [claimC5Price, directItem, List.find?, round2, jsRound]
  · norm_num [priceProduct, priceStep, appliesTo, candidatePrice, directItem,
      List.find?, qPos, round2, jsRound]

/-- C5 witness: the amended theorem applied to a product priced 20 and a
single bulkPercent-10 campaign; the effective price is 18. -/
theorem single_campaign_effective_price_witness :
    (priceProduct [({ id := 10, title := "A", startsAt := none, endsAt := none, isActive := true, applyMode := ApplyMode.bulkPercent, bulkPercent := some 10, bulkAmount := none, items := [⟨1, none, none⟩], branches := [], cities := [], geo := none, categoryIds := [], productIds := [], priority := 0, stackable := false, branch := none } : Offer)]
        ⟨1, 20, none, none, "P", true⟩).effectivePrice =
      round2 (min (20:ℚ)
        (claimC5AmendedPrice { id := 10, title := "A", startsAt := none, endsAt := none, isActive := true, applyMode := ApplyMode.bulkPercent, bulkPercent := some 10, bulkAmount := none, items := [⟨1, none, none⟩], branches := [], cities := [], geo := none, categoryIds := [], productIds := [], priority := 0, stackable := false, branch := none }
          ⟨1, 20, none, none, "P", true⟩)) :=
  single_campaign_effective_price ⟨1, 20, none, none, "P", true⟩ _ _
    (by simp [appliesTo, directItem, List.find?])

/-! ## C9 — price bounds under the schema constraints -/

/-- The schema bounds of `OfferItemSchema` / `OfferCampaignSchema`
(`offer.model.ts:44-98`): item `offerPrice ≥ 0`, item `percent ∈ [0,100]`,
`bulkPercent ∈ [0,100]`, `bulkAmount ≥ 0`. -/
def schemaOk (o : Offer) : Bool :=
  o.items.all (fun it =>
    it.offerPrice.all (fun v => decide (0 ≤ v)) &&
    it.percent.all (fun v => decide (0 ≤ v) && decide (v ≤ 100))) &&
  o.bulkPercent.all (fun v => decide (0 ≤ v) && decide (v ≤ 100)) &&
  o.bulkAmount.all (fun v => decide (0 ≤ v))

theorem candidatePrice_nonneg (o : Offer) (p : Product)
    (hp : 0 ≤ p.price) (hs : schemaOk o = true) :
    0 ≤ candidatePrice o p := by
  have hbp : ∀ v, o.bulkPercent = some v → 0 ≤ v ∧ v ≤ 100 := by
    intro v hv
    simp only [schemaOk, hv, Bool.and_eq_true, Option.all_some,
      decide_eq_true_eq] at hs
    exact hs.1.2
  have hba : ∀ v, o.bulkAmount = some v → 0 ≤ v := by
    intro v hv
    simp only [schemaOk, hv, Bool.and_eq_true, Option.all_some,
      decide_eq_true_eq] at hs
    exact hs.2
  have hitem : ∀ it ∈ o.items, ∀ v, it.percent = some v → 0 ≤ v ∧ v ≤ 100 := by
    intro it hit v hv
    simp only [schemaOk, Bool.and_eq_true, List.all_eq_true] at hs
    have := hs.1.1 it hit
    simp only [hv, Bool.and_eq_true, Option.all_some, decide_eq_true_eq] at this
    exact this.2
  have hAfter : 0 ≤ (match directItem o p.id with
      | some it =>
          if o.applyMode == ApplyMode.perItem then
            if qPos it.offerPrice then it.offerPrice.getD 0
            else if qPos it.percent then p.price * (1 - it.percent.getD 0 / 100)
            else p.price
          else p.price
      | none => p.price : ℚ) := by
    cases hd : directItem o p.id with
    | none => exact hp
    | some it =>
        have hmem : it ∈ o.items := List.mem_of_find?_eq_some hd
        by_cases h1 : o.applyMode == ApplyMode.perItem
        · simp only [h1, if_true]
          by_cases h2 : qPos it.offerPrice = true
          · cases hop : it.offerPrice with
            | none => simp [hop, qPos] at h2
            | some v =>
                simp only [hop, qPos, decide_eq_true_eq] at h2
                simp [hop, qPos, h2, le_of_lt h2]
          · simp only [h2]
            by_cases h3 : qPos it.percent = true
            · cases hpc : it.percent with
              | none => simp [hpc, qPos] at h3
              | some v =>
                  have hb := hitem it hmem v hpc
                  simp only [hpc, Option.getD_some, if_true, h3]
                  have hnn : (0:ℚ) ≤ 1 - v / 100 := by
                    have := hb.2
                    linarith [div_le_one_of_le₀ this (by norm_num : (0:ℚ) ≤ 100)]
                  rw [hpc] at h3
                  simp [h3, mul_nonneg hp hnn]
            · simp [h2, h3, hp]
        · simp [h1, hp]
  unfold candidatePrice
  by_cases hb : (appliesTo o p && o.applyMode != ApplyMode.perItem) = true
  · simp only [hb, if_true]
    by_cases hc1 : (o.applyMode == ApplyMode.bulkPercent && qTruthy o.bulkPercent) = true
    · simp only [hc1, if_true]
      rcases Bool.and_eq_true _ _ |>.mp hc1 with ⟨_, ht⟩
      cases hv : o.bulkPercent with
      | none => simp [hv, qTruthy] at ht
      | some v =>
          have hbv := hbp v hv
          simp only [hv, Option.getD_some]
          have h1 : v / 100 ≤ 1 := div_le_one_of_le₀ hbv.2 (by norm_num)
          nlinarith
    · simp only [hc1]
      by_cases hc2 : (o.applyMode == ApplyMode.bulkAmount && qTruthy o.bulkAmount) = true
      · simp only [hc2, if_true]
        exact le_max_left 0 _
      · simp only [hc2, if_false]
        exact hAfter
  · simp only [hb, if_false]
    exact hAfter

/-- C9 (amended: the upper bound is the original price rounded to 2
decimals): for every product with a nonnegative price and every set of
campaigns satisfying the schema bounds, the pricing calculator's result
satisfies `0 ≤ effectivePrice ≤ round2 originalPrice` — in particular no
combination of campaigns drives the price below zero, and the price can
exceed the original only by the final 2-decimal rounding (at most half a
cent). -/
theorem price_within_bounds (p : Product) (offers : List Offer)
    (hp : 0 ≤ p.price) (hs : ∀ o ∈ offers, schemaOk o = true) :
    0 ≤ (priceProduct offers p).effectivePrice ∧
    (priceProduct offers p).effectivePrice ≤ round2 p.price := by
  have heff : (priceProduct offers p).effectivePrice =
      round2 ((applicableCandidates p offers).foldl min p.price) := by
    simp [priceProduct, foldl_priceStep_eff]
  constructor
  · rw [heff]
    apply round2_nonneg
    apply le_foldl_min _ _ hp
    intro c hc
    simp only [applicableCandidates, List.mem_map, List.mem_filter] at hc
    obtain ⟨o, ⟨ho, _⟩, rfl⟩ := hc
    exact candidatePrice_nonneg o p hp (hs o ho)
  · rw [heff]
    exact round2_mono (foldl_min_le_init _)

/-- C9, counterexample to the claim as stated: a product priced `3/500`
(0.006) and no campaigns at all (which trivially satisfy the schema bounds)
yield `effectivePrice = 0.01 > 0.006 = originalPrice`: the final rounding
can push the effective price above the original. -/
theorem price_within_bounds_cex :
    (0:ℚ) ≤ 3/500 ∧
    (priceProduct [] ⟨1, 3/500, none, none, "P", true⟩).originalPrice = 3/500 ∧
    (priceProduct [] ⟨1, 3/500, none, none, "P", true⟩).effectivePrice >
      (priceProduct [] ⟨1, 3/500, none, none, "P", true⟩).originalPrice := by
  norm_num [priceProduct, priceStep, round2, jsRound]

/-- C9 witness: the amended theorem applied to a product priced 20 and one
schema-conforming bulkPercent-10 campaign. -/
theorem price_within_bounds_witness :
    0 ≤ (priceProduct [({ id := 10, title := "A", startsAt := none, endsAt := none, isActive := true, applyMode := ApplyMode.bulkPercent, bulkPercent := some 10, bulkAmount := none, items := [⟨1, none, none⟩], branches := [], cities := [], geo := none, categoryIds := [], productIds := [], priority := 0, stackable := false, branch := none } : Offer)]
        ⟨1, 20, none, none, "P", true⟩).effectivePrice ∧
    (priceProduct [({ id := 10, title := "A", startsAt := none, endsAt := none, isActive := true, applyMode := ApplyMode.bulkPercent, bulkPercent := some 10, bulkAmount := none, items := [⟨1, none, none⟩], branches := [], cities := [], geo := none, categoryIds := [], productIds := [], priority := 0, stackable := false, branch := none } : Offer)]
        ⟨1, 20, none, none, "P", true⟩).effectivePrice ≤ round2 20 :=
  price_within_bounds ⟨1, 20, none, none, "P", true⟩ _ (by norm_num)
    (by
      intro o ho
      simp only [List.mem_singleton] at ho
      subst ho
      norm_num [schemaOk, Option.all])

/-! ## C10 — failure fallback of the pricing service -/

/-- C10: when the campaign query fails, `calculateEffectivePrices` does not
propagate the exception: it returns every input product with effectivePrice
equal to originalPrice (the raw product price, unrounded) and hasOffer
false, and no discount fields. -/
theorem calc_failure_returns_original (now : ℚ) (branchId : Option Nat)
    (products : List Product) (e : String) :
    (calculateEffectivePricesSafe now (Except.error e) branchId products).length =
      products.length ∧
    calculateEffectivePricesSafe now (Except.error e) branchId products =
      products.map (fun p =>
        { id := p.id
          originalPrice := p.price
          effectivePrice := p.price
          hasOffer := false
          offerDiscount := none
          offerPercent := none
          applicableOffers := none }) :=
  ⟨by simp [calculateEffectivePricesSafe], rfl⟩

/-! ## C2 — what the targeting filter actually selects -/

theorem geoFold_no_add (distMeters : ℚ × ℚ → ℚ × ℚ → ℚ)
    (polyContains : List (ℚ × ℚ) → ℚ × ℚ → Bool) (uc : ℚ × ℚ) :
    ∀ (l acc : List Offer),
      (∀ o ∈ l, acc.any (fun x => x.id == o.id) = true) →
      l.foldl (fun acc o =>
        match o.geo with
        | some g =>
            if geoMatches distMeters polyContains g uc &&
                !(acc.any (fun x => x.id == o.id)) then
              acc ++ [o]
            else acc
        | none => acc) acc = acc := by
  intro l
  induction l with
  | nil => intro acc _; rfl
  | cons o rest ih =>
      intro acc h
      rw [List.foldl_cons]
      have hid := h o (by simp)
      have hstep : (match o.geo with
          | some g =>
              if geoMatches distMeters polyContains g uc &&
                  !(acc.any (fun x => x.id == o.id)) then
                acc ++ [o]
              else acc
          | none => acc) = acc := by
        cases o.geo with
        | none => rfl
        | some g => simp [hid]
      rw [hstep]
      exact ih acc (fun x hx => h x (by simp [hx]))

/-- The geo handling block of `resolveRelevantOffers` never changes the
selection: the geo sub-query inherits the branch/city/global disjunction of
the base query, so every campaign it returns is already in the result list
and the "add if missing" branch never fires.  The selected set is exactly
the base query's, for every distance function and every polygon test. -/
theorem resolveSelection_ignores_geo (distMeters : ℚ × ℚ → ℚ × ℚ → ℚ)
    (polyContains : List (ℚ × ℚ) → ℚ × ℚ → Bool)
    (now : ℚ) (ctx : LocationCtx) (db : List Offer) :
    resolveSelection distMeters polyContains now ctx db =
      db.filter (ctrlBase now ctx) := by
  unfold resolveSelection
  cases hc : ctx.coords with
  | none => rfl
  | some uc =>
      apply geoFold_no_add
      intro o ho
      have hbase : o ∈ db.filter (ctrlBase now ctx) := by
        have := List.mem_filter.mp ho
        exact List.mem_filter.mpr ⟨this.1, by
          have h2 := this.2
          simp only [Bool.and_eq_true] at h2
          exact h2.1⟩
      exact List.any_eq_true.mpr ⟨o, hbase, by simp⟩

/-- C2 failing input: a temporally active campaign whose only targeting is a
circular geofence containing the requester's coordinates.  The claim (and
the spec) say the geofence dimension admits it, but the selection excludes
it: its geofence makes the "unrestricted" condition false and no branch or
city condition applies, and the dead geo block never adds it. -/
theorem geo_only_campaign_never_selected :
    temporallyActive 0 { id := 1, title := "Geo", startsAt := none, endsAt := none, isActive := true, applyMode := ApplyMode.bulkPercent, bulkPercent := some 10, bulkAmount := none, items := [⟨1, none, none⟩], branches := [], cities := [], geo := some (Geo.point 0 0 (some 1000)), categoryIds := [], productIds := [], priority := 0, stackable := false, branch := none } = true ∧
    geoMatches (fun _ _ => 0) (fun _ _ => true) (Geo.point 0 0 (some 1000)) (0, 0) = true ∧
    resolveSelection (fun _ _ => 0) (fun _ _ => true) 0 ⟨none, none, some (0, 0)⟩
      [{ id := 1, title := "Geo", startsAt := none, endsAt := none, isActive := true, applyMode := ApplyMode.bulkPercent, bulkPercent := some 10, bulkAmount := none, items := [⟨1, none, none⟩], branches := [], cities := [], geo := some (Geo.point 0 0 (some 1000)), categoryIds := [], productIds := [], priority := 0, stackable := false, branch := none }] = [] := by
  refine ⟨rfl, ?_, ?_⟩
  · norm_num [geoMatches, qTruthy]
  · rw [resolveSelection_ignores_geo]
    rfl

/-! ## C3 / C4 — stacking resolver -/

/-- Non-increasing priority, the order the sort step guarantees. -/
def PrioGe (a b : Offer) : Prop := b.priority ≤ a.priority

/-- Two campaigns do not both non-stackably claim a common product. -/
def StackOk (a b : Offer) : Prop :=
  ¬(a.stackable = false ∧ b.stackable = false ∧
    ∃ pid, pid ∈ coveredProducts a ∧ pid ∈ coveredProducts b)

theorem jsCmp_lt_prio {x y : Offer} (h : jsCmp x y < 0) :
    y.priority ≤ x.priority := by
  by_cases hp : x.priority = y.priority
  · exact le_of_eq hp.symm
  · have hlt : ((y.priority - x.priority : ℤ) : ℚ) < 0 := by
      unfold jsCmp at h
      simpa [hp] using h
    have : (y.priority - x.priority : ℤ) < 0 := by exact_mod_cast hlt
    omega

theorem jsCmp_ge_prio {x y : Offer} (h : ¬ jsCmp x y < 0) :
    x.priority ≤ y.priority := by
  by_cases hp : x.priority = y.priority
  · exact le_of_eq hp
  · have hge : ¬ ((y.priority - x.priority : ℤ) : ℚ) < 0 := by
      unfold jsCmp at h
      simpa [hp] using h
    have : ¬ (y.priority - x.priority : ℤ) < 0 := by exact_mod_cast hge
    omega

theorem mem_sortedInsert {x z : Offer} :
    ∀ {l : List Offer}, z ∈ sortedInsert x l → z = x ∨ z ∈ l := by
  intro l
  induction l with
  | nil =>
      intro h
      rw [show sortedInsert x [] = [x] from rfl] at h
      exact Or.inl (by simpa using h)
  | cons y ys ih =>
      intro h
      unfold sortedInsert at h
      by_cases hc : jsCmp x y < 0
      · rw [if_pos hc] at h
        rcases List.mem_cons.mp h with h | h
        · exact Or.inl h
        · exact Or.inr h
      · rw [if_neg hc] at h
        rcases List.mem_cons.mp h with h | h
        · exact Or.inr (by simp [h])
        · rcases ih h with h | h
          · exact Or.inl h
          · exact Or.inr (by simp [h])

theorem sortedInsert_pairwise {x : Offer} :
    ∀ {l : List Offer}, l.Pairwise PrioGe → (sortedInsert x l).Pairwise PrioGe := by
  intro l
  induction l with
  | nil => intro _; simp [sortedInsert, List.Pairwise]
  | cons y ys ih =>
      intro h
      obtain ⟨hy, hys⟩ := List.pairwise_cons.mp h
      unfold sortedInsert
      by_cases hc : jsCmp x y < 0
      · rw [if_pos hc]
        apply List.pairwise_cons.mpr
        refine ⟨?_, h⟩
        intro z hz
        rcases List.mem_cons.mp hz with hz | hz
        · subst hz; exact jsCmp_lt_prio hc
        · exact le_trans (hy z hz) (jsCmp_lt_prio hc)
      · rw [if_neg hc]
        apply List.pairwise_cons.mpr
        refine ⟨?_, ih hys⟩
        intro z hz
        rcases mem_sortedInsert hz with hz | hz
        · subst hz; exact jsCmp_ge_prio hc
        · exact hy z hz

theorem sortOffers_pairwise (l : List Offer) :
    (sortOffers l).Pairwise PrioGe := by
  unfold sortOffers
  suffices h : ∀ (l acc : List Offer), acc.Pairwise PrioGe →
      (l.foldl (fun acc x => sortedInsert x acc) acc).Pairwise PrioGe by
    exact h l [] List.Pairwise.nil
  intro l
  induction l with
  | nil => intro acc h; exact h
  | cons x xs ih =>
      intro acc h
      rw [List.foldl_cons]
      exact ih _ (sortedInsert_pairwise h)

theorem setAll_apply (o : Offer) :
    ∀ (ps : List Nat) (m : StackMap) (q : Nat),
      (ps.foldl (fun m' pid => mapSet m' pid [o]) m) q =
        if q ∈ ps then [o] else m q := by
  intro ps
  induction ps with
  | nil => intro m q; simp
  | cons pid rest ih =>
      intro m q
      rw [List.foldl_cons, ih]
      by_cases hq : q ∈ rest
      · simp [hq]
      · by_cases hq2 : q = pid
        · simp [hq, hq2, mapSet]
        · simp [hq, hq2, mapSet]

theorem pushAll_mem_mono (o c : Offer) :
    ∀ (ps : List Nat) (m : StackMap) (q : Nat),
      c ∈ m q →
      c ∈ (ps.foldl (fun m' pid => mapSet m' pid (m' pid ++ [o])) m) q := by
  intro ps
  induction ps with
  | nil => intro m q h; exact h
  | cons pid rest ih =>
      intro m q h
      rw [List.foldl_cons]
      apply ih
      unfold mapSet
      by_cases hq : q == pid
      · simp only [hq, if_true]
        have : q = pid := by simpa using hq
        subst this
        simp [h]
      · simp only [hq]
        simpa using h

theorem stack_fold_invariant :
    ∀ (rest applied : List Offer) (m : StackMap),
      rest.Pairwise PrioGe →
      (∀ a ∈ applied, ∀ o ∈ rest, o.priority ≤ a.priority) →
      (∀ a ∈ applied, a.stackable = false → ∀ pid ∈ coveredProducts a,
        ∃ c ∈ m pid, c.stackable = false ∧ a.priority ≤ c.priority) →
      applied.Pairwise StackOk →
      (rest.foldl stackStep (applied, m)).1.Pairwise StackOk := by
  intro rest
  induction rest with
  | nil => intro applied m _ _ _ h4; exact h4
  | cons o rest ih =>
      intro applied m h1 h2 h3 h4
      rw [List.foldl_cons]
      have h1' : rest.Pairwise PrioGe := (List.pairwise_cons.mp h1).2
      have h1o : ∀ x ∈ rest, x.priority ≤ o.priority :=
        fun x hx => (List.pairwise_cons.mp h1).1 x hx
      by_cases hst : o.stackable = true
      · have hstep : stackStep (applied, m) o =
            (applied ++ [o],
             (coveredProducts o).foldl (fun m' pid => mapSet m' pid (m' pid ++ [o])) m) := by
          simp [stackStep, hst]
        rw [hstep]
        apply ih
        · exact h1'
        · intro a ha x hx
          rcases List.mem_append.mp ha with ha | ha
          · exact h2 a ha x (by simp [hx])
          · have haeq : a = o := by simpa using ha
            subst haeq
            exact h1o x hx
        · intro a ha hans pid hpid
          rcases List.mem_append.mp ha with ha | ha
          · obtain ⟨c, hcm, hcns, hcp⟩ := h3 a ha hans pid hpid
            exact ⟨c, pushAll_mem_mono o c _ m pid hcm, hcns, hcp⟩
          · have haeq : a = o := by simpa using ha
            subst haeq
            rw [hans] at hst
            exact absurd hst (by simp)
        · apply List.pairwise_append.mpr
          refine ⟨h4, by simp, ?_⟩
          intro a ha b hb
          have hbo : b = o := by simpa using hb
          subst hbo
          intro hcon
          rw [hcon.2.1] at hst
          exact absurd hst (by simp)
      · have hns : o.stackable = false := by
          simpa using hst
        by_cases hca : ((coveredProducts o).all (fun pid =>
            !((m pid).any (fun e => !e.stackable && o.priority ≤ e.priority)))) = true
        · have hstep : stackStep (applied, m) o =
              (applied ++ [o],
               (coveredProducts o).foldl (fun m' pid => mapSet m' pid [o]) m) := by
            simp [stackStep, hns, hca]
          have hkey : ∀ a ∈ applied, a.stackable = false →
              ∀ pid, pid ∈ coveredProducts a → pid ∈ coveredProducts o → False := by
            intro a ha hans pid hpa hpo
            obtain ⟨c, hcm, hcns, hcp⟩ := h3 a ha hans pid hpa
            have hblock := List.all_eq_true.mp hca pid hpo
            have hany : ((m pid).any (fun e => !e.stackable && o.priority ≤ e.priority)) = false := by
              simpa using hblock
            have hcnot : ¬(c.stackable = false ∧ o.priority ≤ c.priority) := by
              intro hcc
              have : ((m pid).any (fun e => !e.stackable && o.priority ≤ e.priority)) = true :=
                List.any_eq_true.mpr ⟨c, hcm, by simp [hcc.1, hcc.2]⟩
              rw [this] at hany
              exact absurd hany (by simp)
            have hoa : o.priority ≤ a.priority := h2 a ha o (by simp)
            exact hcnot ⟨hcns, le_trans hoa hcp⟩
          rw [hstep]
          apply ih
          · exact h1'
          · intro a ha x hx
            rcases List.mem_append.mp ha with ha | ha
            · exact h2 a ha x (by simp [hx])
            · have haeq : a = o := by simpa using ha
              subst haeq
              exact h1o x hx
          · intro a ha hans pid hpid
            rcases List.mem_append.mp ha with ha | ha
            · obtain ⟨c, hcm, hcns, hcp⟩ := h3 a ha hans pid hpid
              have hnotin : pid ∉ coveredProducts o :=
                fun hpo => hkey a ha hans pid hpid hpo
              refine ⟨c, ?_, hcns, hcp⟩
              rw [setAll_apply]
              simp [hnotin, hcm]
            · have haeq : a = o := by simpa using ha
              subst haeq
              refine ⟨a, ?_, hans, le_refl _⟩
              rw [setAll_apply]
              simp [hpid]
          · apply List.pairwise_append.mpr
            refine ⟨h4, by simp, ?_⟩
            intro a ha b hb
            have hbo : b = o := by simpa using hb
            subst hbo
            intro hcon
            obtain ⟨hans, _, pid, hpa, hpb⟩ := hcon
            exact hkey a ha hans pid hpa hpb
        · have hstep : stackStep (applied, m) o = (applied, m) := by
            simp [stackStep, hns, hca]
          rw [hstep]
          apply ih
          · exact h1'
          · intro a ha x hx
            exact h2 a ha x (by simp [hx])
          · exact h3
          · exact h4

/-- C3: for every input campaign list, the stacking stage (the sort by
priority descending that immediately precedes the loop, then the loop) never
outputs two non-stackable campaigns that both claim the same product: a
non-stackable campaign is accepted only if no already-claiming campaign on
any product it covers is itself non-stackable with priority greater than or
equal to its own. -/
theorem stacking_no_shared_nonstackable (l : List Offer) :
    (stackingResolve (sortOffers l)).Pairwise StackOk := by
  unfold stackingResolve
  apply stack_fold_invariant
  · exact sortOffers_pairwise l
  · intro a ha
    exact absurd ha (by simp)
  · intro a ha
    exact absurd ha (by simp)
  · exact List.Pairwise.nil

theorem perm_pair_eq {α : Type _} {l : List α} {a b : α} (h : l.Perm [a, b]) :
    l = [a, b] ∨ l = [b, a] := by
  obtain ⟨x, y, rfl⟩ := List.length_eq_two.mp (by simpa using h.length_eq)
  by_cases hxa : x = a
  · subst hxa
    have h2 : [y].Perm [b] := h.cons_inv
    have : y = b := by simpa using List.perm_singleton.mp h2
    subst this
    exact Or.inl rfl
  · have hamem : a ∈ [x, y] := h.mem_iff.mpr (by simp)
    have hay : a = y := by
      rcases List.mem_cons.mp hamem with h' | h'
      · exact absurd h'.symm hxa
      · simpa using h'
    have hbmem : b ∈ [x, y] := h.mem_iff.mpr (by simp)
    rcases List.mem_cons.mp hbmem with h' | h'
    · right
      rw [← h', ← hay]
    · have hby : b = y := by simpa using h'
      have hxmem : x ∈ [a, b] := h.mem_iff.mp (by simp)
      rcases List.mem_cons.mp hxmem with h2 | h2
      · exact absurd h2 hxa
      · have hxb : x = b := by simpa using h2
        exact absurd ((hxb.trans hby).trans hay.symm) hxa

theorem sortOffers_pair_high_first {A B : Offer} (hpr : B.priority < A.priority) :
    sortOffers [A, B] = [A, B] ∧ sortOffers [B, A] = [A, B] := by
  have hne : B.priority ≠ A.priority := ne_of_lt hpr
  have hcBA : ¬ jsCmp B A < 0 := by
    have h1 : (0:ℚ) ≤ ((A.priority - B.priority : ℤ) : ℚ) := by
      have h0 : (0:ℤ) ≤ A.priority - B.priority := by omega
      exact_mod_cast h0
    unfold jsCmp
    rw [if_pos hne]
    exact not_lt.mpr h1
  have hcAB : jsCmp A B < 0 := by
    have h1 : ((B.priority - A.priority : ℤ) : ℚ) < 0 := by
      have h0 : (B.priority - A.priority : ℤ) < 0 := by omega
      exact_mod_cast h0
    unfold jsCmp
    rw [if_pos (Ne.symm hne)]
    exact h1
  constructor
  · show sortedInsert B (sortedInsert A []) = [A, B]
    rw [show sortedInsert A [] = [A] from rfl]
    unfold sortedInsert
    rw [if_neg hcBA]
    rfl
  · show sortedInsert A (sortedInsert B []) = [A, B]
    rw [show sortedInsert B [] = [B] from rfl]
    unfold sortedInsert
    rw [if_pos hcAB]

/-- C4: for every pair of non-stackable campaigns contesting the same
product where one has strictly higher priority, the stacking stage (sort
then loop) outputs the higher-priority campaign and not the lower-priority
one, for every ordering (permutation) of the input campaign list. -/
theorem stacking_priority_displaces (A B : Offer) (pid : Nat) (l : List Offer)
    (hA : A.stackable = false) (hB : B.stackable = false)
    (hpr : B.priority < A.priority)
    (hpA : pid ∈ coveredProducts A) (hpB : pid ∈ coveredProducts B)
    (hl : l.Perm [A, B]) :
    A ∈ stackingResolve (sortOffers l) ∧ B ∉ stackingResolve (sortOffers l) := by
  have hAB : B ≠ A := by
    intro h
    rw [h] at hpr
    exact absurd hpr (lt_irrefl _)
  have hsort : sortOffers l = [A, B] := by
    rcases perm_pair_eq hl with h | h
    · rw [h]; exact (sortOffers_pair_high_first hpr).1
    · rw [h]; exact (sortOffers_pair_high_first hpr).2
  rw [hsort]
  have hres : stackingResolve [A, B] = [A] := by
    unfold stackingResolve
    rw [List.foldl_cons, List.foldl_cons, List.foldl_nil]
    have h1 : stackStep (([] : List Offer), (fun _ => [] : StackMap)) A =
        ([A], (coveredProducts A).foldl (fun m' q => mapSet m' q [A]) (fun _ => [])) := by
      simp [stackStep, hA]
    rw [h1]
    have h2 : stackStep
        ([A], (coveredProducts A).foldl (fun m' q => mapSet m' q [A]) (fun _ => [])) B =
        ([A], (coveredProducts A).foldl (fun m' q => mapSet m' q [A]) (fun _ => [])) := by
      have hcan : ((coveredProducts B).all (fun q =>
          !((((coveredProducts A).foldl (fun m' q' => mapSet m' q' [A]) (fun _ => [])) q).any
            (fun e => !e.stackable && B.priority ≤ e.priority)))) = false := by
        apply (Bool.eq_false_iff).mpr
        intro hall
        have hq := List.all_eq_true.mp hall pid hpB
        rw [setAll_apply] at hq
        simp only [hpA, if_true] at hq
        have : (List.any [A] (fun e => !e.stackable && B.priority ≤ e.priority)) = true := by
          simp [hA, le_of_lt hpr]
        rw [this] at hq
        exact absurd hq (by simp)
      simp [stackStep, hB, hcan]
    rw [h2]
  rw [hres]
  exact ⟨by simp, by simp [hAB]⟩

/-- C4 witness: two concrete non-stackable campaigns with priorities 5 and
3 both covering product 7, fed in low-priority-first order. -/
theorem stacking_priority_displaces_witness :
    ({ id := 1, title := "hi", startsAt := none, endsAt := none, isActive := true, applyMode := ApplyMode.perItem, bulkPercent := none, bulkAmount := none, items := [⟨7, none, none⟩], branches := [], cities := [], geo := none, categoryIds := [], productIds := [], priority := 5, stackable := false, branch := none } : Offer) ∈
      stackingResolve (sortOffers
        [{ id := 2, title := "lo", startsAt := none, endsAt := none, isActive := true, applyMode := ApplyMode.perItem, bulkPercent := none, bulkAmount := none, items := [⟨7, none, none⟩], branches := [], cities := [], geo := none, categoryIds := [], productIds := [], priority := 3, stackable := false, branch := none },
         { id := 1, title := "hi", startsAt := none, endsAt := none, isActive := true, applyMode := ApplyMode.perItem, bulkPercent := none, bulkAmount := none, items := [⟨7, none, none⟩], branches := [], cities := [], geo := none, categoryIds := [], productIds := [], priority := 5, stackable := false, branch := none }]) ∧
    ({ id := 2, title := "lo", startsAt := none, endsAt := none, isActive := true, applyMode := ApplyMode.perItem, bulkPercent := none, bulkAmount := none, items := [⟨7, none, none⟩], branches := [], cities := [], geo := none, categoryIds := [], productIds := [], priority := 3, stackable := false, branch := none } : Offer) ∉
      stackingResolve (sortOffers
        [{ id := 2, title := "lo", startsAt := none, endsAt := none, isActive := true, applyMode := ApplyMode.perItem, bulkPercent := none, bulkAmount := none, items := [⟨7, none, none⟩], branches := [], cities := [], geo := none, categoryIds := [], productIds := [], priority := 3, stackable := false, branch := none },
         { id := 1, title := "hi", startsAt := none, endsAt := none, isActive := true, applyMode := ApplyMode.perItem, bulkPercent := none, bulkAmount := none, items := [⟨7, none, none⟩], branches := [], cities := [], geo := none, categoryIds := [], productIds := [], priority := 5, stackable := false, branch := none }]) :=
  stacking_priority_displaces _ _ 7 _ rfl rfl (by norm_num)
    (by simp [coveredProducts]) (by simp [coveredProducts])
    (List.Perm.swap _ _ _)

/-! ## C6 — nearest branch: spatial query vs manual fallback -/

/-- Structural-recursion version of the running-minimum scan, keeping the
earliest branch among equals. -/
def nearestRecD (d : Branch → ℚ) : List Branch → Option (Branch × ℚ)
  | [] => none
  | b :: rest =>
      match nearestRecD d rest with
      | none => some (b, d b)
      | some (c, dc) => if dc < d b then some (c, dc) else some (b, d b)

theorem scanNearest_acc (d : Branch → ℚ) :
    ∀ (l : List Branch) (c : Branch) (dc : ℚ),
      l.foldl (fun acc b =>
        match acc with
        | none => some (b, d b)
        | some (c, dc) => if d b < dc then some (b, d b) else some (c, dc))
        (some (c, dc)) =
      (match nearestRecD d l with
       | none => some (c, dc)
       | some (b, db') => if db' < dc then some (b, db') else some (c, dc)) := by
  intro l
  induction l with
  | nil => intro c dc; rfl
  | cons x xs ih =>
      intro c dc
      rw [List.foldl_cons]
      by_cases hx : d x < dc
      · simp only [hx, if_true]
        rw [ih]
        cases hrec : nearestRecD d xs with
        | none => simp [nearestRecD, hrec, hx]
        | some bp =>
            obtain ⟨b, db'⟩ := bp
            by_cases hbx : db' < d x
            · simp [nearestRecD, hrec, hbx, lt_trans hbx hx]
            · simp [nearestRecD, hrec, hbx, hx]
      · simp only [hx, if_false]
        rw [ih]
        cases hrec : nearestRecD d xs with
        | none =>
            have : ¬ d x < dc := hx
            simp [nearestRecD, hrec, this]
        | some bp =>
            obtain ⟨b, db'⟩ := bp
            by_cases hbx : db' < d x
            · simp [nearestRecD, hrec, hbx]
            · have h1 : ¬ db' < dc := fun hlt =>
                hx (lt_of_le_of_lt (not_lt.mp hbx) hlt)
              have h2 : ¬ d x < dc := hx
              simp [nearestRecD, hrec, hbx, h1, h2]

theorem scanNearest_eq_rec (d : Branch → ℚ) (l : List Branch) :
    scanNearest d l = nearestRecD d l := by
  cases l with
  | nil => rfl
  | cons x xs =>
      unfold scanNearest
      rw [List.foldl_cons]
      have h0 : (match (none : Option (Branch × ℚ)) with
          | none => some (x, d x)
          | some (c, dc) => if d x < dc then some (x, d x) else some (c, dc)) =
          some (x, d x) := rfl
      rw [h0, scanNearest_acc]
      cases hrec : nearestRecD d xs with
      | none => simp [nearestRecD, hrec]
      | some bp =>
          obtain ⟨b, db'⟩ := bp
          by_cases hbx : db' < d x
          · simp [nearestRecD, hrec, hbx]
          · simp [nearestRecD, hrec, hbx]

theorem nearestRecD_eq_none_iff (d : Branch → ℚ) :
    ∀ l : List Branch, nearestRecD d l = none ↔ l = [] := by
  intro l
  cases l with
  | nil => simp [nearestRecD]
  | cons x xs =>
      simp only [nearestRecD]
      cases hrec : nearestRecD d xs with
      | none => simp
      | some bp =>
          obtain ⟨b, db'⟩ := bp
          by_cases hbx : db' < d x <;> simp [hbx]

theorem nearestRecD_min (d : Branch → ℚ) :
    ∀ (l : List Branch) (c : Branch) (dc : ℚ),
      nearestRecD d l = some (c, dc) →
      c ∈ l ∧ dc = d c ∧ ∀ b ∈ l, dc ≤ d b := by
  intro l
  induction l with
  | nil => intro c dc h; exact absurd h (by simp [nearestRecD])
  | cons x xs ih =>
      intro c dc h
      simp only [nearestRecD] at h
      cases hrec : nearestRecD d xs with
      | none =>
          rw [hrec] at h
          have hx : c = x ∧ dc = d x := by
            have := h
            simp at this
            exact ⟨this.1.symm, this.2.symm⟩
          obtain ⟨rfl, rfl⟩ := hx
          have hxs : xs = [] := (nearestRecD_eq_none_iff d xs).mp hrec
          subst hxs
          exact ⟨by simp, rfl, by simp⟩
      | some bp =>
          obtain ⟨b, db'⟩ := bp
          rw [hrec] at h
          obtain ⟨hb, hdb, hmin⟩ := ih b db' hrec
          by_cases hbx : db' < d x
          · simp only [hbx, if_true] at h
            have hcb : c = b ∧ dc = db' := by
              have h2 := h
              simp at h2
              exact ⟨h2.1.symm, h2.2.symm⟩
            obtain ⟨rfl, rfl⟩ := hcb
            refine ⟨by simp [hb], hdb, ?_⟩
            intro y hy
            rcases List.mem_cons.mp hy with hy | hy
            · subst hy; exact le_of_lt hbx
            · exact hmin y hy
          · simp only [hbx, if_false] at h
            have hcx : c = x ∧ dc = d x := by
              have h2 := h
              simp at h2
              exact ⟨h2.1.symm, h2.2.symm⟩
            obtain ⟨rfl, rfl⟩ := hcx
            refine ⟨by simp, rfl, ?_⟩
            intro y hy
            rcases List.mem_cons.mp hy with hy | hy
            · subst hy; exact le_refl _
            · exact le_trans (not_lt.mp hbx) (hmin y hy)

theorem nearestRecD_filter_radius (d : Branch → ℚ) (r : ℚ) :
    ∀ l : List Branch, (∃ b ∈ l, d b ≤ r) →
      nearestRecD d (l.filter (fun b => d b ≤ r)) = nearestRecD d l := by
  intro l
  induction l with
  | nil => intro _; rfl
  | cons x xs ih =>
      intro hex
      by_cases hx : d x ≤ r
      · have hfil : (x :: xs).filter (fun b => d b ≤ r) =
            x :: xs.filter (fun b => d b ≤ r) := by
          simp [List.filter_cons, hx]
        rw [hfil]
        by_cases hex2 : ∃ b ∈ xs, d b ≤ r
        · have := ih hex2
          simp only [nearestRecD]
          rw [this]
        · have hall : ∀ b ∈ xs, ¬ d b ≤ r := by
            intro b hb hle
            exact hex2 ⟨b, hb, hle⟩
          have hfil2 : xs.filter (fun b => d b ≤ r) = [] := by
            apply List.filter_eq_nil_iff.mpr
            intro b hb
            simp [hall b hb]
          rw [hfil2]
          simp only [nearestRecD]
          cases hrec : nearestRecD d xs with
          | none => rfl
          | some bp =>
              obtain ⟨b, db'⟩ := bp
              obtain ⟨hbmem, hdb, _⟩ := nearestRecD_min d xs b db' hrec
              have hgt : ¬ db' < d x := by
                have h1 : r < d b := not_le.mp (hall b hbmem)
                rw [hdb]
                exact not_lt.mpr (le_trans hx (le_of_lt h1))
              simp [hgt]
      · obtain ⟨b0, hb0, hb0r⟩ := hex
        have hb0xs : b0 ∈ xs := by
          rcases List.mem_cons.mp hb0 with h | h
          · subst h; exact absurd hb0r hx
          · exact h
        have hex2 : ∃ b ∈ xs, d b ≤ r := ⟨b0, hb0xs, hb0r⟩
        have hfil : (x :: xs).filter (fun b => d b ≤ r) =
            xs.filter (fun b => d b ≤ r) := by
          simp [List.filter_cons, hx]
        rw [hfil, ih hex2]
        cases hrec : nearestRecD d xs with
        | none =>
            have := (nearestRecD_eq_none_iff d xs).mp hrec
            subst this
            exact absurd hb0xs (by simp)
        | some bp =>
            obtain ⟨c, dc⟩ := bp
            obtain ⟨_, hdc, hmin⟩ := nearestRecD_min d xs c dc hrec
            have hlt : dc < d x :=
              lt_of_le_of_lt (le_trans (hmin b0 hb0xs) hb0r) (not_le.mp hx)
            simp [nearestRecD, hrec, hlt]

/-- C6 (amended): whenever some active branch lies within `maxDistanceKm`,
the spatial nearest-branch query and the manual full-scan fallback return
the same branch, and the spatial query only returns branches within the
radius; the fallback returns none on an empty active-branch set.  When every
active branch is farther than the radius the two strategies disagree: the
spatial query returns none while the fallback still returns the nearest
branch. -/
theorem nearest_branch_agreement (d : Branch → ℚ) (maxDistanceKm : ℚ)
    (db : List Branch)
    (h : ∃ b ∈ db, b.isActive = true ∧ d b ≤ maxDistanceKm) :
    findNearestBranchByCoordinates d maxDistanceKm db =
      findNearestBranchManual d db ∧
    (∀ b, findNearestBranchByCoordinates d maxDistanceKm db = some b →
      d b ≤ maxDistanceKm) := by
  obtain ⟨b0, hb0, hact, hb0r⟩ := h
  have hfil : db.filter (fun b => b.isActive && d b ≤ maxDistanceKm) =
      (db.filter (·.isActive)).filter (fun b => d b ≤ maxDistanceKm) := by
    rw [List.filter_filter]
    apply List.filter_congr
    intro b _
    exact Bool.and_comm _ _
  have hmem : b0 ∈ db.filter (·.isActive) := List.mem_filter.mpr ⟨hb0, by simp [hact]⟩
  have hex : ∃ b ∈ db.filter (·.isActive), d b ≤ maxDistanceKm := ⟨b0, hmem, hb0r⟩
  have hne : db.filter (·.isActive) ≠ [] := by
    intro hnil
    rw [hnil] at hmem
    exact absurd hmem (by simp)
  constructor
  · unfold findNearestBranchByCoordinates findNearestBranchManual
    rw [if_neg (by simpa using hne)]
    rw [hfil, scanNearest_eq_rec, scanNearest_eq_rec,
      nearestRecD_filter_radius d maxDistanceKm _ hex]
  · intro b hb
    unfold findNearestBranchByCoordinates at hb
    rw [hfil, scanNearest_eq_rec] at hb
    cases hrec : nearestRecD d ((db.filter (·.isActive)).filter (fun b => d b ≤ maxDistanceKm)) with
    | none => rw [hrec] at hb; exact absurd hb (by simp)
    | some bp =>
        obtain ⟨c, dc⟩ := bp
        rw [hrec] at hb
        have hcb : c = b := by simpa using hb
        subst hcb
        obtain ⟨hcmem, _, _⟩ := nearestRecD_min d _ c dc hrec
        have := List.mem_filter.mp hcmem
        simpa using this.2

/-- C6, auxiliary part of the claim: the manual fallback returns none on an
empty active-branch set. -/
theorem nearest_branch_manual_empty (d : Branch → ℚ) (db : List Branch)
    (h : db.filter (·.isActive) = []) :
    findNearestBranchManual d db = none := by
  unfold findNearestBranchManual
  rw [if_pos (by simpa using h)]

/-- C6, counterexample to the claim as stated: one active branch at distance
150 with search radius 100: the spatial query returns none, the manual
fallback returns the branch — the two strategies do not return the same
branch, and the fallback returns a branch farther than the search radius. -/
theorem nearest_branch_agreement_cex :
    findNearestBranchByCoordinates (fun _ => (150:ℚ)) 100 [⟨1, "b", true, 0, 0⟩] = none ∧
    findNearestBranchManual (fun _ => (150:ℚ)) [⟨1, "b", true, 0, 0⟩] =
      some ⟨1, "b", true, 0, 0⟩ ∧
    findNearestBranchByCoordinates (fun _ => (150:ℚ)) 100 [⟨1, "b", true, 0, 0⟩] ≠
      findNearestBranchManual (fun _ => (150:ℚ)) [⟨1, "b", true, 0, 0⟩] ∧
    ¬ ((150:ℚ) ≤ 100) := by
  have h1 : findNearestBranchByCoordinates (fun _ => (150:ℚ)) 100
      [⟨1, "b", true, 0, 0⟩] = none := by
    unfold findNearestBranchByCoordinates
    norm_num [List.filter_cons, scanNearest]
  have h2 : findNearestBranchManual (fun _ => (150:ℚ)) [⟨1, "b", true, 0, 0⟩] =
      some ⟨1, "b", true, 0, 0⟩ := by
    unfold findNearestBranchManual
    norm_num [List.filter_cons, scanNearest]
  refine ⟨h1, h2, ?_, by norm_num⟩
  rw [h1, h2]
  simp

/-- C6 witness: one active branch at distance 50 within radius 100 — the
amended theorem applies and both strategies agree. -/
theorem nearest_branch_agreement_witness :
    findNearestBranchByCoordinates (fun _ => (50:ℚ)) 100 [⟨1, "b", true, 0, 0⟩] =
      findNearestBranchManual (fun _ => (50:ℚ)) [⟨1, "b", true, 0, 0⟩] ∧
    (∀ b, findNearestBranchByCoordinates (fun _ => (50:ℚ)) 100 [⟨1, "b", true, 0, 0⟩] =
      some b → (fun _ => (50:ℚ)) b ≤ 100) :=
  nearest_branch_agreement (fun _ => (50:ℚ)) 100 [⟨1, "b", true, 0, 0⟩]
    ⟨⟨1, "b", true, 0, 0⟩, by simp, rfl, by norm_num⟩

/-! ## C7 — order creation rejects total mismatches atomically -/

/-- C7: whenever the server-side recomputed subtotal differs from the
client-submitted subtotal by more than 0.01, or subtotal plus shipping
differs from the submitted total by more than 0.01, `createOrder` returns an
error and the persistent state is unchanged: no order and no address is
persisted (the transaction aborts). -/
theorem order_rejected_on_mismatch (d : ℚ × ℚ → Branch → ℚ)
    (ipLocate : String → Option (ℚ × ℚ)) (now : ℚ)
    (data : CreateOrderData) (db : Db) (lines : List OrderLine) (s : ℚ)
    (hitems : processItems now db data.items = Except.ok (lines, s))
    (hmis : 1/100 < |s - data.subtotal| ∨
            1/100 < |s + data.shipping - data.total|) :
    ∃ e, createOrder d ipLocate now data db = (db, Except.error e) := by
  unfold createOrder
  by_cases hcust : db.customers.contains data.customerId
  · have hmem : data.customerId ∈ db.customers := by simpa using hcust
    by_cases h1 : 1/100 < |s - data.subtotal|
    · have h1' : (100:ℚ)⁻¹ < |s - data.subtotal| := by
        rw [← one_div]; exact h1
      refine ⟨"Subtotal mismatch", ?_⟩
      simp [hmem, hitems, h1']
    · have h1' : ¬ (100:ℚ)⁻¹ < |s - data.subtotal| := by
        rw [← one_div]; exact h1
      have h2 : 1/100 < |s + data.shipping - data.total| := by
        rcases hmis with hm | hm
        · exact absurd hm h1
        · exact hm
      have h2' : (100:ℚ)⁻¹ < |s + data.shipping - data.total| := by
        rw [← one_div]; exact h2
      refine ⟨"Total amount mismatch", ?_⟩
      simp [hmem, hitems, h1', h2']
  · have hmem : data.customerId ∉ db.customers := by simpa using hcust
    refine ⟨"Customer not found", ?_⟩
    simp [hmem]

/-- C7 witness: a concrete store with one product priced 10 and a submitted
subtotal of 99; the recomputed subtotal is 10, the order is rejected and the
store is returned unchanged. -/
theorem order_rejected_on_mismatch_witness :
    ∃ e, createOrder (fun _ _ => 0) (fun _ => none) 0
      { customerId := 1
        items := [⟨1, 1⟩]
        shippingAddress := ⟨none, none, none, none, none, none, none, none, none, none, none, false⟩
        subtotal := 99
        shipping := 0
        total := 99
        saveInfo := false
        customerIpAddress := none
        clientLocation := none }
      { customers := [1]
        products := [⟨1, 10, none, none, "P", true⟩]
        offers := []
        branches := []
        orders := []
        addresses := [] } =
      ({ customers := [1]
         products := [⟨1, 10, none, none, "P", true⟩]
         offers := []
         branches := []
         orders := []
         addresses := [] }, Except.error e) := by
  refine order_rejected_on_mismatch _ _ _ _ _ [⟨1, "P", 10, none, 1, 10⟩] 10 ?_ ?_
  · norm_num [processItems, applyOfferPricingNoCtx, calculateEffectivePrices,
      svcQuery, priceProduct, priceStep, qOr, round2, jsRound, List.foldlM,
      List.find?, temporallyActive]
  · left
    norm_num

/-! ## C8 — campaign writes are rejected on product conflicts -/

theorem checkProductConflicts_reports (now : ℚ) (offers : List Offer)
    (products : List Product) (pids : List Nat) (excl tb : Option Nat)
    (c : Offer) (pid : Nat)
    (hc : c ∈ offers)
    (hcp : conflictPred now pids excl tb c = true)
    (hpidc : pid ∈ c.items.map (·.product))
    (hpidq : pids.contains pid = true) :
    ∃ details, checkProductConflicts now offers products pids excl tb = some details ∧
      ∃ dtl ∈ details, dtl.offerTitle = c.title ∧
        productTitle products pid ∈ dtl.products := by
  have hmemf : c ∈ offers.filter (conflictPred now pids excl tb) :=
    List.mem_filter.mpr ⟨hc, hcp⟩
  have hne : offers.filter (conflictPred now pids excl tb) ≠ [] :=
    List.ne_nil_of_mem hmemf
  unfold checkProductConflicts
  rw [if_neg (by simpa [List.isEmpty_iff] using hne)]
  refine ⟨_, rfl, ?_⟩
  refine ⟨⟨c.title,
    (c.items.filter (fun it => pids.contains it.product)).map
      (fun it => productTitle products it.product)⟩,
    List.mem_map.mpr ⟨c, hmemf, rfl⟩, rfl, ?_⟩
  obtain ⟨it, hit, hitp⟩ := List.mem_map.mp hpidc
  have hitf : it ∈ c.items.filter (fun it => pids.contains it.product) :=
    List.mem_filter.mpr ⟨hit, by rw [hitp]; exact hpidq⟩
  exact List.mem_map.mpr ⟨it, hitf, by rw [hitp]⟩

theorem conflictPred_of_parts (now : ℚ) (pids : List Nat)
    (excl tb : Option Nat) (c : Offer)
    (hact : c.isActive = true)
    (hstart : ∀ sAt ∈ c.startsAt, sAt ≤ now)
    (hend : ∀ eAt ∈ c.endsAt, now ≤ eAt)
    (hbr : ∀ tbv, tb = some tbv → (c.branch = none ∨ c.branch = some tbv))
    (hexcl : ∀ ex, excl = some ex → c.id ≠ ex)
    (hcov : c.items.any (fun it => pids.contains it.product) = true) :
    conflictPred now pids excl tb c = true := by
  unfold conflictPred
  simp only [Bool.and_eq_true]
  refine ⟨⟨⟨⟨⟨hact, hcov⟩, ?_⟩, ?_⟩, ?_⟩, ?_⟩
  · cases hs : c.startsAt with
    | none => rfl
    | some sAt => simpa using hstart sAt (by simp [hs])
  · cases hs : c.endsAt with
    | none => rfl
    | some eAt => simpa using hend eAt (by simp [hs])
  · cases ht : tb with
    | none => rfl
    | some tbv => rcases hbr tbv ht with h | h <;> simp [h]
  · cases he : excl with
    | none => rfl
    | some ex => simpa using hexcl ex he

theorem createOfferW_conflict (now : ℚ) (user : AppUser) (body : CreateOfferBody)
    (db : OffersDb) (details : List ConflictDetail)
    (hne : body.items ≠ [])
    (hfound : (db.products.filter (fun p => (body.items.map (·.product)).contains p.id)).length =
      (body.items.map (·.product)).length)
    (hck : checkProductConflicts now db.offers db.products (body.items.map (·.product))
      none (if user.role == Role.branchOp then user.branchId else body.branch) =
        some details) :
    createOfferW now user body db =
      (db, Except.error (WriteError.productConflict details)) := by
  unfold createOfferW
  have hEmpty : body.items.isEmpty = false := by
    cases hb : body.items with
    | nil => exact absurd hb hne
    | cons a l => rfl
  rw [hEmpty]
  simp only [Bool.false_eq_true, if_false]
  rw [if_neg (fun h => h hfound), hck]

theorem updateOfferW_conflict (now : ℚ) (user : AppUser) (oid : Nat)
    (body : UpdateOfferBody) (db : OffersDb) (o0 : Offer)
    (its : List OfferItemReq) (details : List ConflictDetail)
    (hfind : db.offers.find? (fun o => o.id == oid) = some o0)
    (hperm : (user.role == Role.branchOp && o0.branch.isSome &&
      o0.branch != user.branchId) = false)
    (hits : body.items = some its)
    (hck : checkProductConflicts now db.offers db.products (its.map (·.product))
      (some oid) (updateTargetBranch user body o0) = some details) :
    updateOfferW now user oid body db =
      (db, Except.error (WriteError.productConflict details)) := by
  unfold updateOfferW
  rw [hfind]
  simp only [hperm, Bool.false_eq_true, if_false]
  rw [hits]
  simp only []
  rw [hck]

/-- C8: creating or updating an offer whose submitted products include a
product already covered by another active campaign — temporally valid at the
time of the write, branch-aware with respect to the target branch; the
conflict check treats every campaign as conflicting regardless of its
stackable flag — is rejected with the store unchanged, and the rejection
carries the conflicting campaign titles and the specific overlapping
products rather than a generic error. -/
theorem offer_write_conflict_rejected (now : ℚ) (user : AppUser) (db : OffersDb)
    (c : Offer) (pid : Nat)
    (hc : c ∈ db.offers)
    (hact : c.isActive = true)
    (hstart : ∀ sAt ∈ c.startsAt, sAt ≤ now)
    (hend : ∀ eAt ∈ c.endsAt, now ≤ eAt)
    (hpidc : pid ∈ c.items.map (·.product)) :
    (∀ body : CreateOfferBody,
      pid ∈ body.items.map (·.product) →
      (db.products.filter (fun p => (body.items.map (·.product)).contains p.id)).length =
        (body.items.map (·.product)).length →
      (∀ tbv, (if user.role == Role.branchOp then user.branchId else body.branch) =
          some tbv → (c.branch = none ∨ c.branch = some tbv)) →
      ∃ details,
        createOfferW now user body db =
          (db, Except.error (WriteError.productConflict details)) ∧
        ∃ dtl ∈ details, dtl.offerTitle = c.title ∧
          productTitle db.products pid ∈ dtl.products) ∧
    (∀ (oid : Nat) (body : UpdateOfferBody) (o0 : Offer) (its : List OfferItemReq),
      db.offers.find? (fun o => o.id == oid) = some o0 →
      (user.role == Role.branchOp && o0.branch.isSome &&
        o0.branch != user.branchId) = false →
      body.items = some its →
      pid ∈ its.map (·.product) →
      c.id ≠ oid →
      (∀ tbv, updateTargetBranch user body o0 = some tbv →
        (c.branch = none ∨ c.branch = some tbv)) →
      ∃ details,
        updateOfferW now user oid body db =
          (db, Except.error (WriteError.productConflict details)) ∧
        ∃ dtl ∈ details, dtl.offerTitle = c.title ∧
          productTitle db.products pid ∈ dtl.products) := by
  constructor
  · intro body hpidb hfound hbr
    have hcov : c.items.any
        (fun it => (body.items.map (·.product)).contains it.product) = true := by
      obtain ⟨it, hit, hitp⟩ := List.mem_map.mp hpidc
      exact List.any_eq_true.mpr ⟨it, hit, by rw [hitp]; simpa using hpidb⟩
    have hcp := conflictPred_of_parts now (body.items.map (·.product)) none
      (if user.role == Role.branchOp then user.branchId else body.branch) c
      hact hstart hend hbr (fun ex h => absurd h (by simp)) hcov
    obtain ⟨details, hck, hdtl⟩ := checkProductConflicts_reports now db.offers
      db.products (body.items.map (·.product)) none
      (if user.role == Role.branchOp then user.branchId else body.branch) c pid
      hc hcp hpidc (by simpa using hpidb)
    have hne : body.items ≠ [] := by
      intro h
      rw [h] at hpidb
      simp at hpidb
    exact ⟨details, createOfferW_conflict now user body db details hne hfound hck, hdtl⟩
  · intro oid body o0 its hfind hperm hits hpid hcid hbr
    have hcov : c.items.any
        (fun it => (its.map (·.product)).contains it.product) = true := by
      obtain ⟨it, hit, hitp⟩ := List.mem_map.mp hpidc
      exact List.any_eq_true.mpr ⟨it, hit, by rw [hitp]; simpa using hpid⟩
    have hcp := conflictPred_of_parts now (its.map (·.product)) (some oid)
      (updateTargetBranch user body o0) c hact hstart hend hbr
      (fun ex h => (Option.some.inj h) ▸ hcid) hcov
    obtain ⟨details, hck, hdtl⟩ := checkProductConflicts_reports now db.offers
      db.products (its.map (·.product)) (some oid)
      (updateTargetBranch user body o0) c pid hc hcp hpidc (by simpa using hpid)
    exact ⟨details,
      updateOfferW_conflict now user oid body db o0 its details hfind hperm hits hck,
      hdtl⟩

/-- Witness fixture: the already-active campaign covering product 1. -/
def c8ConflictOffer : Offer :=
  { id := 3, title := "Summer", startsAt := none, endsAt := none, isActive := true, applyMode := ApplyMode.perItem, bulkPercent := none, bulkAmount := none, items := [⟨1, some 5, none⟩], branches := [], cities := [], geo := none, categoryIds := [], productIds := [], priority := 0, stackable := false, branch := none }

/-- Witness fixture: the campaign being updated. -/
def c8OtherOffer : Offer :=
  { id := 4, title := "Other", startsAt := none, endsAt := none, isActive := true, applyMode := ApplyMode.perItem, bulkPercent := none, bulkAmount := none, items := [⟨2, some 7, none⟩], branches := [], cities := [], geo := none, categoryIds := [], productIds := [], priority := 0, stackable := false, branch := none }

/-- Witness fixture: the campaign store. -/
def c8Db : OffersDb :=
  { offers := [c8ConflictOffer, c8OtherOffer]
    products := [⟨1, 10, none, none, "Phone", true⟩, ⟨2, 20, none, none, "Tablet", true⟩]
    nextId := 5 }

/-- Witness fixture: the admin performing the writes. -/
def c8User : AppUser := ⟨Role.admin, 1, none⟩

/-- Witness fixture: the submitted new campaign, covering product 1. -/
def c8CreateBody : CreateOfferBody :=
  { title := "New", startsAt := none, endsAt := none, applyMode := ApplyMode.perItem, bulkPercent := none, bulkAmount := none, branch := none, items := [⟨1, some 4, none⟩] }

/-- Witness fixture: the update of campaign 4, adding product 1. -/
def c8UpdateBody : UpdateOfferBody :=
  { title := none, startsAt := none, endsAt := none, isActive := none, applyMode := none, bulkPercent := none, bulkAmount := none, branch := none, items := some [⟨1, none, none⟩] }

/-- C8 witness: both the create and the update of a campaign covering
product 1 are rejected with the conflicting campaign's title ("Summer") and
the overlapping product's title ("Phone"). -/
theorem offer_write_conflict_rejected_witness :
    (∃ details,
      createOfferW 0 c8User c8CreateBody c8Db =
        (c8Db, Except.error (WriteError.productConflict details)) ∧
      ∃ dtl ∈ details, dtl.offerTitle = c8ConflictOffer.title ∧
        productTitle c8Db.products 1 ∈ dtl.products) ∧
    (∃ details,
      updateOfferW 0 c8User 4 c8UpdateBody c8Db =
        (c8Db, Except.error (WriteError.productConflict details)) ∧
      ∃ dtl ∈ details, dtl.offerTitle = c8ConflictOffer.title ∧
        productTitle c8Db.products 1 ∈ dtl.products) := by
  have h := offer_write_conflict_rejected 0 c8User c8Db c8ConflictOffer 1
    (by simp [c8Db]) rfl (by simp [c8ConflictOffer]) (by simp [c8ConflictOffer])
    (by simp [c8ConflictOffer])
  constructor
  · exact h.1 c8CreateBody (by simp [c8CreateBody]) (by rfl)
      (by intro tbv hx; simp [c8User, c8CreateBody] at hx)
  · exact h.2 4 c8UpdateBody c8OtherOffer [⟨1, none, none⟩] (by rfl) (by rfl) (by rfl)
      (by simp) (by simp [c8ConflictOffer])
      (by intro tbv hx; simp [updateTargetBranch, c8User, c8UpdateBody, c8OtherOffer] at hx)

end MtcServer

